import Mathlib

/-!
A shallow embedding of ESLint's `ConfigArrayFactory`
(`src/lib/lookup/config-array-factory.js`) in Lean 4, together with proofs of
the specification's claims about it.

The factory file is the authoritative source.  Its collaborators
(`override-tester.js`, `naming.js`, `config-array.js`, `module-resolver.js`,
and Node's `path`/`require` machinery) are not part of the given sources;
where a definition below stands in for one of them its doc comment starts
with "Modelled from the spec:" and it follows the specification's words.

JavaScript conventions used throughout the embedding:
* `undefined`/absent optional values are `Option.none`;
* file-path strings use POSIX separators, and the empty string stands for a
  falsy (missing) path, matching the factory's own `if (!filePath)` checks;
* exceptions are the `Except JsError` monad; a generator that is fully
  drained by its caller (as `createConfigArray(...elements)` does) is a
  function returning `Except JsError (List _)`;
* the unbounded `extends` recursion is made total with an explicit fuel
  parameter; fuel exhaustion is a distinguished error that no theorem ever
  relies on.
-/

set_option maxHeartbeats 1000000

/-- File paths are plain strings (POSIX flavour); `""` models a missing path. -/
abbrev JsPath := String

/-- JavaScript `String.prototype.startsWith`, written over character lists
so that it evaluates by kernel reduction. -/
def strStartsWith (s pre : String) : Bool := pre.toList.isPrefixOf s.toList

/-! ### Small POSIX `path` helpers (Node's `path` module, posix behaviour) -/

/-- Index of the last occurrence of `c`, if any. -/
def lastIdxOf (c : Char) : List Char → Option Nat
  | [] => none
  | x :: xs =>
    match lastIdxOf c xs with
    | some i => some (i + 1)
    | none => if x = c then some 0 else none

/-- `path.dirname` for POSIX paths. -/
def dirname (p : JsPath) : JsPath :=
  match lastIdxOf '/' p.toList with
  | none => "."
  | some 0 => "/"
  | some i => String.mk (p.toList.take i)

/-- `path.isAbsolute` for POSIX paths. -/
def jsIsAbsolute (p : JsPath) : Bool := strStartsWith p "/"

/-- `path.join(a, b)` restricted to the clean inputs the factory feeds it. -/
def joinPath (a b : JsPath) : JsPath := a ++ "/" ++ b

/-- `path.resolve(base, p)` restricted to the clean inputs the factory feeds it. -/
def jsResolvePath (base p : JsPath) : JsPath :=
  if jsIsAbsolute p then p else if p = "" then base else joinPath base p

/-- `path.relative(base, p)` restricted to the clean inputs used here:
`p` inside `base` is stripped of the `base ++ "/"` prefix. -/
def jsRelative (base p : JsPath) : JsPath :=
  if p = base then ""
  else if strStartsWith p (base ++ "/") then p.drop (base.length + 1)
  else p

/-- JavaScript `String.prototype.slice(start, stop)`: negative indices count
from the end, the result is empty when the normalized range is empty. -/
def jsSlice (s : String) (start stop : Int) : String :=
  let len : Int := s.length
  let norm : Int → Nat := fun i =>
    (max 0 (min len (if i < 0 then len + i else i))).toNat
  let a := norm start
  let b := norm stop
  String.mk ((s.toList.drop a).take (b - a))

/-- JavaScript `String.prototype.slice(start)` (to the end of the string). -/
def jsSliceFrom (s : String) (start : Int) : String :=
  jsSlice s start (s.length : Int)

/-- The `/\s+/u` test of `_loadPlugin`, restricted to the ASCII whitespace
characters that can occur in package identifiers. -/
def hasWhitespace (s : String) : Bool :=
  s.toList.any fun c =>
    c = ' ' ∨ c = '\t' ∨ c = '\n' ∨ c = '\r' ∨ c = '\x0b' ∨ c = '\x0c'

/-- `isFilePath` from `config-array-factory.js`: matches `/^\.{1,2}[/\\]/u`
or an absolute path. -/
def isFilePath (nameOrPath : String) : Bool :=
  strStartsWith nameOrPath "./" ∨ strStartsWith nameOrPath "../" ∨
  strStartsWith nameOrPath ".\\" ∨ strStartsWith nameOrPath "..\\" ∨
  jsIsAbsolute nameOrPath

/-! ### Glob matching and the override tester

Modelled from the spec: `override-tester.js` is not among the given sources.
Spec section 4.3: "`create(files, excludedFiles, basePath)` builds a matcher
requiring: target path (relativized to basePath) matches at least one pattern
in `files` (required, string or array) and matches none in `excludedFiles`
(optional). `AND(a, b)` composes two matchers conjunctively; `null` operands
are absorbed. Patterns support shell-glob semantics"; and section 3: a
criteria carries "a `basePath` for relative resolution" that the factory
reassigns in place. -/

/-- Modelled from the spec: shell-glob matching (the subset with the `*` and
`?` wildcards, which covers every pattern the factory itself synthesizes). -/
def globMatchL : List Char → List Char → Bool
  | [], [] => true
  | '*' :: ps, [] => globMatchL ps []
  | '*' :: ps, c :: cs => globMatchL ps (c :: cs) || globMatchL ('*' :: ps) cs
  | '?' :: ps, _ :: cs => globMatchL ps cs
  | p :: ps, c :: cs => p = c && globMatchL ps cs
  | _ :: _, [] => false
  | [], _ :: _ => false
  termination_by ps s => (ps.length, s.length)

/-- Modelled from the spec: glob matching on strings. -/
def globMatch (pat s : String) : Bool := globMatchL pat.toList s.toList

/-- Modelled from the spec: one compiled `files`/`excludedFiles` pair. -/
structure OverridePattern where
  includes : List String
  excludes : List String
deriving DecidableEq

/-- Modelled from the spec: the compiled criteria of an `overrides` entry —
a conjunction of compiled pattern pairs plus a (reassignable) base path. -/
structure OverrideTester where
  patterns : List OverridePattern
  basePath : JsPath
deriving DecidableEq

/-- Modelled from the spec: `OverrideTester.create(files, excludedFiles,
basePath)`; a missing `files` yields `null` (no criteria). -/
def OverrideTester.create (files excludedFiles : Option (List String))
    (basePath : JsPath) : Option OverrideTester :=
  match files with
  | none => none
  | some fs => some ⟨[⟨fs, excludedFiles.getD []⟩], basePath⟩

/-- Modelled from the spec: `OverrideTester.and(a, b)` — `null` operands are
absorbed, two matchers combine into one requiring both (keeping the first
operand's base path, which the factory reassigns right afterwards). -/
def OverrideTester.and : Option OverrideTester → Option OverrideTester →
    Option OverrideTester
  | none, none => none
  | some a, none => some a
  | none, some b => some b
  | some a, some b => some ⟨a.patterns ++ b.patterns, a.basePath⟩

/-- Modelled from the spec: `tester.test(absolutePath)` — the path,
relativized to the base path, must match some `includes` pattern and no
`excludes` pattern, for every compiled pair. -/
def OverrideTester.test (t : OverrideTester) (filePath : JsPath) : Bool :=
  let rel := jsRelative t.basePath filePath
  t.patterns.all fun pat =>
    pat.includes.any (fun g => globMatch g rel) &&
    !pat.excludes.any (fun g => globMatch g rel)

/-- Matching against an optional criteria: `null` criteria match every path
(spec section 4.5 selects fragments "whose `criteria` is `null` or whose
`criteria.test(targetPath)` is true"). -/
def optTest (c : Option OverrideTester) (filePath : JsPath) : Bool :=
  match c with
  | none => true
  | some t => t.test filePath

/-! ### Config data (the raw declarative input)

`ConfigData` is the destructured object of `_normalizeObjectConfigDataBody`.
Object-valued passthrough fields (`env`, `globals`, `parserOptions`, `rules`,
`settings`) are opaque payloads — the factory never inspects them — and are
modelled as optional strings.  The JS `extends` field is
`string | string[] | undefined`; the JS `files`/`excludedFiles` fields are
`string | string[] | undefined`, with the single-string form modelled as a
one-element list. -/

/-- The `extends` field of a config: absent, one name, or an array of names. -/
inductive ExtendsField where
  | nil : ExtendsField
  | single (s : String) : ExtendsField
  | multiple (ss : List String) : ExtendsField
deriving DecidableEq

/-- `Array.isArray(extend) ? extend : [extend]` followed by `.filter(Boolean)`
(so an absent field and empty-string entries are dropped). -/
def ExtendsField.toList : ExtendsField → List String
  | .nil => []
  | .single s => if s = "" then [] else [s]
  | .multiple ss => ss.filter (fun s => s ≠ "")

/-- Raw config data, recursive through the `overrides` list. -/
inductive ConfigData : Type where
  | mk
    (env : Option String)
    (globals : Option String)
    (parserOptions : Option String)
    (rules : Option String)
    (settings : Option String)
    (ext : ExtendsField)
    (parser : Option String)
    (plugins : Option (List String))
    (processor : Option String)
    (root : Option Bool)
    (files : Option (List String))
    (excludedFiles : Option (List String))
    (overrides : List ConfigData)
    : ConfigData

def ConfigData.env : ConfigData → Option String
  | .mk v _ _ _ _ _ _ _ _ _ _ _ _ => v

def ConfigData.globals : ConfigData → Option String
  | .mk _ v _ _ _ _ _ _ _ _ _ _ _ => v

def ConfigData.parserOptions : ConfigData → Option String
  | .mk _ _ v _ _ _ _ _ _ _ _ _ _ => v

def ConfigData.rules : ConfigData → Option String
  | .mk _ _ _ v _ _ _ _ _ _ _ _ _ => v

def ConfigData.settings : ConfigData → Option String
  | .mk _ _ _ _ v _ _ _ _ _ _ _ _ => v

def ConfigData.ext : ConfigData → ExtendsField
  | .mk _ _ _ _ _ v _ _ _ _ _ _ _ => v

def ConfigData.parser : ConfigData → Option String
  | .mk _ _ _ _ _ _ v _ _ _ _ _ _ => v

def ConfigData.plugins : ConfigData → Option (List String)
  | .mk _ _ _ _ _ _ _ v _ _ _ _ _ => v

def ConfigData.processor : ConfigData → Option String
  | .mk _ _ _ _ _ _ _ _ v _ _ _ _ => v

def ConfigData.root : ConfigData → Option Bool
  | .mk _ _ _ _ _ _ _ _ _ v _ _ _ => v

def ConfigData.files : ConfigData → Option (List String)
  | .mk _ _ _ _ _ _ _ _ _ _ v _ _ => v

def ConfigData.excludedFiles : ConfigData → Option (List String)
  | .mk _ _ _ _ _ _ _ _ _ _ _ v _ => v

def ConfigData.overrides : ConfigData → List ConfigData
  | .mk _ _ _ _ _ _ _ _ _ _ _ _ v => v

/-- A config data with every field absent (the building block of concrete
examples; fields of interest are overridden at the use site). -/
def emptyConfigData : ConfigData :=
  .mk none none none none none .nil none none none none none none []

/-! ### Loaded modules, errors, and config dependencies -/

/-- The exported value of a loaded module (a plugin or parser definition).
`configs` models `definition.configs` (used by `plugin:` extends) and
`processors` models the keys of `definition.processors`; `tag` is an opaque
payload distinguishing module values. -/
structure ModuleDef where
  configs : List (String × ConfigData)
  processors : List String
  tag : String

/-- A module definition with no configs and no processors. -/
def plainModule (tag : String) : ModuleDef := ⟨[], [], tag⟩

/-- A JavaScript `Error` as the factory observes and decorates it. -/
structure JsError where
  message : String
  code : Option String
  messageTemplate : Option String
  messageData : List (String × String)

/-- An error with only a message (plain `new Error(msg)`). -/
def plainError (msg : String) : JsError := ⟨msg, none, none, []⟩

/-- The distinguished fuel-exhaustion error of the embedding (never produced
by the modelled code on inputs with enough fuel; no theorem relies on it). -/
def fuelError : JsError := ⟨"embedding: out of fuel", some "FUEL", none, []⟩

/-- `configMissingError(configName)` from `config-array-factory.js`. -/
def configMissingError (configName : String) : JsError :=
  ⟨"Failed to load config \x22" ++ configName ++ "\x22 to extend from.",
   none, some "extend-config-missing", [("configName", configName)]⟩

/-- `ConfigDependency` (`config-dependency.js` is not among the given
sources, but the factory constructs it as a plain record of these fields, and
the whitespace branch of `_loadPlugin` returns a literal of the same shape).
`filePath`/`importerName`/`importerPath` use `""` for JS `undefined`. -/
structure ConfigDependency where
  definition : Option ModuleDef
  error : Option JsError
  filePath : JsPath
  id : String
  importerName : String
  importerPath : JsPath

/-! ### Package-name conventions

Modelled from the spec: `naming.js` is not among the given sources.  Spec
section 4.2: "normalize the identifier to its conventional package form
(e.g., prefix/short-name conventions for parsers vs. plugins, respecting
scoped-name forms)". -/

/-- Split a scoped name `@scope/rest` at its first slash. -/
def splitScoped (s : String) : Option (String × String) :=
  match lastIdxOf '/' s.toList.reverse with
  | none => none
  | some i =>
    let idx := s.length - 1 - i
    some (String.mk (s.toList.take idx), String.mk (s.toList.drop (idx + 1)))

/-- Modelled from the spec: `naming.normalizePackageName(name, pfx)` — bare
short names gain the `pfx + "-"` prefix, scoped names keep the scope and gain
the prefix after it, already-conventional names pass through. -/
def normalizePackageName (name pfx : String) : String :=
  if strStartsWith name "@" then
    match splitScoped name with
    | none => name ++ "/" ++ pfx
    | some (scope, rest) =>
      if rest = pfx ∨ strStartsWith rest (pfx ++ "-") then name
      else if rest = "" then scope ++ "/" ++ pfx
      else scope ++ "/" ++ pfx ++ "-" ++ rest
  else if strStartsWith name (pfx ++ "-") then name
  else pfx ++ "-" ++ name

/-- Modelled from the spec: `naming.getShorthandName(fullname, pfx)` — the
inverse direction, dropping the conventional prefix. -/
def getShorthandName (fullname pfx : String) : String :=
  if strStartsWith fullname "@" then
    match splitScoped fullname with
    | none => fullname
    | some (scope, rest) =>
      if rest = pfx then scope
      else if strStartsWith rest (pfx ++ "-") then
        scope ++ "/" ++ rest.drop (pfx.length + 1)
      else fullname
  else if strStartsWith fullname (pfx ++ "-") then fullname.drop (pfx.length + 1)
  else fullname

/-! ### Config array elements (fragments) and the factory environment -/

/-- `ConfigArrayElement`: one fragment as yielded by
`_normalizeObjectConfigDataBody` (and post-processed by
`_normalizeObjectConfigData`). -/
structure ConfigArrayElement where
  name : String
  filePath : JsPath
  criteria : Option OverrideTester
  env : Option String
  globals : Option String
  parser : Option ConfigDependency
  parserOptions : Option String
  plugins : Option (List (String × ConfigDependency))
  processor : Option String
  root : Option Bool
  rules : Option String
  settings : Option String

/-- What reading-and-parsing one config file can produce.  `missing` is an
`ENOENT`/`MODULE_NOT_FOUND` miss; `packageJson none` is a manifest without an
`eslintConfig` field; `raises` is any other read/parse failure (carrying the
already-wrapped error the concrete reader would throw). -/
inductive FileEntry where
  | missing : FileEntry
  | config (d : ConfigData) : FileEntry
  | packageJson (cfg : Option ConfigData) : FileEntry
  | raises (e : JsError) : FileEntry

/-- The factory's constructor state together with its injected capabilities:
the additional parser/plugin pools and `cwd` are the constructor options of
`ConfigArrayFactory`; `resolve` is `ModuleResolver.resolve(request,
relativeTo)`; `requireModule` is `require(filePath)` (which may throw);
`readConfigFile` is the file system as seen by the format-dispatching
`loadConfigFile`; `espree`/`espreePath` are the bundled default parser. -/
structure Ctx where
  additionalParserPool : List (String × ModuleDef)
  additionalPluginPool : List (String × ModuleDef)
  cwd : JsPath
  resolve : String → JsPath → Except JsError JsPath
  requireModule : JsPath → Except JsError ModuleDef
  readConfigFile : JsPath → FileEntry
  espree : ModuleDef
  espreePath : JsPath

/-- Exact-id lookup in an additional pool (`Map.prototype.get`). -/
def poolGet (pool : List (String × ModuleDef)) (id : String) :
    Option ModuleDef :=
  (pool.find? (fun kv => kv.1 = id)).map (fun kv => kv.2)

/-- Insertion into a JS object used as a map: an existing key keeps its
position and gets the new value, a new key is appended. -/
def assocSet (m : List (String × ConfigDependency)) (k : String)
    (v : ConfigDependency) : List (String × ConfigDependency) :=
  if m.any (fun kv => kv.1 = k) then
    m.map (fun kv => if kv.1 = k then (k, v) else kv)
  else m ++ [(k, v)]

/-- Lookup in a JS object used as a map. -/
def assocGet (m : List (String × ConfigDependency)) (k : String) :
    Option ConfigDependency :=
  (m.find? (fun kv => kv.1 = k)).map (fun kv => kv.2)

/-- `eslintRecommendedPath` — the bundled `conf/eslint-recommended.js`. -/
def eslintRecommendedPath : JsPath := "/eslint/conf/eslint-recommended.js"

/-- `eslintAllPath` — the bundled `conf/eslint-all.js`. -/
def eslintAllPath : JsPath := "/eslint/conf/eslint-all.js"

/-- `configFilenames` — the fixed, ordered directory-search list. -/
def configFilenames : List String :=
  [".eslintrc.js", ".eslintrc.yaml", ".eslintrc.yml", ".eslintrc.json",
   ".eslintrc", "package.json"]

/-- `loadConfigFile(filePath)`: dispatch on the file's format and read it.
The per-format readers (`loadJSConfigFile`, `loadYAMLConfigFile`,
`loadJSONConfigFile`, `loadPackageJSONConfigFile`, `loadLegacyConfigFile`)
reduce, over the `FileEntry` abstraction, to: a missing file throws `ENOENT`,
a manifest without the `eslintConfig` field throws
`ESLINT_CONFIG_FIELD_NOT_FOUND`, a broken source rethrows its wrapped error,
and anything else yields its parsed config data. -/
def loadConfigFile (ctx : Ctx) (filePath : JsPath) :
    Except JsError ConfigData :=
  match ctx.readConfigFile filePath with
  | .missing =>
    .error ⟨"ENOENT: no such file or directory, open '" ++ filePath ++ "'",
            some "ENOENT", none, []⟩
  | .config d => .ok d
  | .packageJson (some d) => .ok d
  | .packageJson none =>
    .error ⟨"Cannot read config file: " ++ filePath ++
            "\nError: package.json file doesn't have 'eslintConfig' field.",
            some "ESLINT_CONFIG_FIELD_NOT_FOUND", none, []⟩
  | .raises e => .error e

/-! ### The dependency loader (`_loadParser`, `_loadPlugin`, `_loadPlugins`) -/

/-- `_loadParser(nameOrPath, importerPath, importerName)`: consult the
additional parser pool by exact id; otherwise resolve `nameOrPath` relative
to the importer path (falling back to `cwd + "/.eslintrc"`) and load it; on
failure annotate a `MODULE_NOT_FOUND` message, fall back to the bundled
`espree` when the requested parser is named "espree", and otherwise capture
the error in the returned dependency.  Never throws. -/
def loadParser (ctx : Ctx) (nameOrPath : String) (importerPath : JsPath)
    (importerName : String) : ConfigDependency :=
  match poolGet ctx.additionalParserPool nameOrPath with
  | some defn =>
    ⟨some defn, none, importerPath, nameOrPath, importerName, importerPath⟩
  | none =>
    let relativeTo :=
      if importerPath = "" then joinPath ctx.cwd ".eslintrc" else importerPath
    match (do
        let filePath ← ctx.resolve nameOrPath relativeTo
        let defn ← ctx.requireModule filePath
        pure (filePath, defn) : Except JsError (JsPath × ModuleDef)) with
    | .ok (filePath, defn) =>
      ⟨some defn, none, filePath, nameOrPath, importerName, importerPath⟩
    | .error e =>
      let e :=
        if e.code = some "MODULE_NOT_FOUND" then
          { e with message := "Failed to load parser " ++ nameOrPath ++ ": " ++
              e.message ++ " (relative to " ++ relativeTo ++ ")" }
        else e
      if nameOrPath = "espree" then
        ⟨some ctx.espree, none, ctx.espreePath, nameOrPath, importerName,
         importerPath⟩
      else ⟨none, some e, "", nameOrPath, importerName, importerPath⟩

/-- The `Whitespace found in plugin name ...` error of `_loadPlugin`. -/
def whitespaceError (nameOrPath request : String) : JsError :=
  ⟨"Whitespace found in plugin name '" ++ nameOrPath ++ "'",
   none, some "whitespace-found", [("pluginName", request)]⟩

/-- The resolve-and-require tail of `_loadPlugin`: resolve `request` relative
to the project root (`cwd + "/.eslintrc"`), load it, and on failure annotate
a `MODULE_NOT_FOUND` error with the `plugin-missing` template; the failure is
captured in the returned dependency, never thrown. -/
def loadPluginResolve (ctx : Ctx) (request id : String)
    (importerPath : JsPath) (importerName : String) : ConfigDependency :=
  let relativeTo := joinPath ctx.cwd ".eslintrc"
  match (do
      let filePath ← ctx.resolve request relativeTo
      let defn ← ctx.requireModule filePath
      pure (filePath, defn) : Except JsError (JsPath × ModuleDef)) with
  | .ok (filePath, defn) =>
    ⟨some defn, none, filePath, id, importerName, importerPath⟩
  | .error e =>
    let e :=
      if e.code = some "MODULE_NOT_FOUND" then
        { e with
          message := "Failed to load plugin " ++ request ++ ": " ++
            e.message ++ " (project root is " ++ ctx.cwd ++ ")",
          messageTemplate := some "plugin-missing",
          messageData :=
            [("pluginName", request), ("projectRoot", ctx.cwd)] }
      else e
    ⟨none, some e, "", id, importerName, importerPath⟩

/-- `_loadPlugin(nameOrPath, importerPath, importerName)`: a file path is
used verbatim as request and id; otherwise the name is normalized to its
`eslint-plugin` package form, a whitespace-bearing name yields a dependency
record carrying a structured error (without attempting resolution), the
additional plugin pool is consulted, and finally the plugin is resolved
relative to the project root.  Never throws. -/
def loadPlugin (ctx : Ctx) (nameOrPath : String) (importerPath : JsPath)
    (importerName : String) : ConfigDependency :=
  if isFilePath nameOrPath then
    loadPluginResolve ctx nameOrPath nameOrPath importerPath importerName
  else
    let request := normalizePackageName nameOrPath "eslint-plugin"
    let id := getShorthandName request "eslint-plugin"
    if hasWhitespace nameOrPath then
      ⟨none, some (whitespaceError nameOrPath request), "", id, "",
       importerPath⟩
    else
      match poolGet ctx.additionalPluginPool request <|>
            poolGet ctx.additionalPluginPool id with
      | some plugin =>
        ⟨some plugin, none, importerPath, id, importerName, importerPath⟩
      | none => loadPluginResolve ctx request id importerPath importerName

/-- `_loadPlugins(names, importerPath, importerName)`: fold the plugin list
into an id-keyed map; a file-path entry throws immediately ("Plugins array
cannot includes file paths."). -/
def loadPlugins (ctx : Ctx) (names : List String) (importerPath : JsPath)
    (importerName : String) :
    Except JsError (List (String × ConfigDependency)) :=
  names.foldlM
    (fun m name =>
      if isFilePath name then
        .error (plainError "Plugins array cannot includes file paths.")
      else
        let plugin := loadPlugin ctx name importerPath importerName
        .ok (assocSet m plugin.id plugin))
    []

/-! ### The resolution engine -/

/-- Modelled from the spec: `config-validator.js` is not among the given
sources.  `validateConfigSchema` rejects unknown top-level keys (spec section
4.4 step 1); the typed `ConfigData` of this embedding cannot carry unknown
keys, so validation always succeeds here. -/
def validateConfigSchema (_d : ConfigData) (_source : String) :
    Except JsError Unit := .ok ()

/-- The per-element post-processing loop of `_normalizeObjectConfigData`:
compose this level's criteria onto the element's, and if the composed
criteria is non-null, stamp this level's base path onto it and force `root`
to `undefined`. -/
def applyCriteria (basePath : JsPath) (criteria : Option OverrideTester)
    (element : ConfigArrayElement) : ConfigArrayElement :=
  match OverrideTester.and criteria element.criteria with
  | some c =>
    { element with criteria := some { c with basePath := basePath },
                   root := none }
  | none => { element with criteria := none }

/-- The pseudo config data synthesized by `_takeFileExtensionProcessors`:
for each loaded plugin (in map order) and each of its processors whose id
starts with `"."`, the config `{files: ["*" + ext], processor:
"<pluginId>/<ext>"}` paired with its synthesized name. -/
def pseudoProcessorConfigs (plugins : List (String × ConfigDependency))
    (name : String) : List (ConfigData × String) :=
  (plugins.map (fun kv =>
    let procs :=
      match kv.2.definition with
      | some defn => defn.processors
      | none => []
    (procs.filter (fun pid => strStartsWith pid ".")).map (fun pid =>
      (ConfigData.mk none none none none none .nil none none
        (some (kv.1 ++ "/" ++ pid)) none (some ["*" ++ pid]) none [],
       name ++ "#processors[\x22" ++ kv.1 ++ "/" ++ pid ++ "\x22]")))).flatten

/-- The `pluginList && this._loadPlugins(...)` step of the body: an absent
`plugins` field stays absent, a present one is loaded (and may throw). -/
def loadPluginsField (ctx : Ctx) (names : Option (List String))
    (importerPath : JsPath) (importerName : String) :
    Except JsError (Option (List (String × ConfigDependency))) :=
  match names with
  | none => .ok none
  | some ns =>
    Except.bind (loadPlugins ctx ns importerPath importerName)
      (fun m => .ok (some m))

/-- The pseudo configs of the `if (plugins) yield* take...` step: an absent
plugins map contributes none. -/
def pseudoConfigsOfPlugins
    (plugins : Option (List (String × ConfigDependency))) (name : String) :
    List (ConfigData × String) :=
  match plugins with
  | some m => pseudoProcessorConfigs m name
  | none => []

mutual

/-- `_normalizeObjectConfigData(configData, filePath, name)`: split off
`files`/`excludedFiles`, compile this level's criteria over
`dirname(filePath)` (or `cwd`), normalize the remaining body, and apply the
criteria to every element (stamping the base path and clearing `root` on
criteria-bearing elements). -/
def normalizeObjectConfigData (ctx : Ctx) (fuel : Nat) (d : ConfigData)
    (filePath : JsPath) (name : String) :
    Except JsError (List ConfigArrayElement) :=
  match fuel with
  | 0 => .error fuelError
  | fuel + 1 =>
    let basePath := if filePath = "" then ctx.cwd else dirname filePath
    let criteria := OverrideTester.create d.files d.excludedFiles basePath
    do
      let elements ← normalizeObjectConfigDataBody ctx fuel d filePath name
      pure (elements.map (applyCriteria basePath criteria))

/-- `_normalizeObjectConfigDataBody(configBody, filePath, name)`: flatten
`extends` (in declared order), load the parser and plugin dependencies,
yield pseudo elements for plugin file-extension processors, yield this
level's own element, then flatten `overrides` (in declared order). -/
def normalizeObjectConfigDataBody (ctx : Ctx) (fuel : Nat) (d : ConfigData)
    (filePath : JsPath) (name : String) :
    Except JsError (List ConfigArrayElement) :=
  match fuel with
  | 0 => .error fuelError
  | fuel + 1 => do
    let extFrags ← loadExtendsList ctx fuel d.ext.toList filePath name
    let parser := d.parser.map (fun pn => loadParser ctx pn filePath name)
    let plugins ← loadPluginsField ctx d.plugins filePath name
    let procFrags ← takeFileExtensionProcessors ctx fuel
      (pseudoConfigsOfPlugins plugins name) filePath
    let ownElement : ConfigArrayElement :=
      ⟨name, filePath, none, d.env, d.globals, parser, d.parserOptions,
       plugins, d.processor, d.root, d.rules, d.settings⟩
    let overrideFrags ← flattenOverrides ctx fuel d.overrides filePath name 0
    pure (extFrags ++ procFrags ++ [ownElement] ++ overrideFrags)

/-- `_normalizeConfigData(configData, filePath, name)`: default the path and
name, validate the schema, and normalize. -/
def normalizeConfigData (ctx : Ctx) (fuel : Nat) (d : ConfigData)
    (filePath : JsPath) (name : String) :
    Except JsError (List ConfigArrayElement) :=
  match fuel with
  | 0 => .error fuelError
  | fuel + 1 =>
    let filePath' := if filePath = "" then "" else jsResolvePath ctx.cwd filePath
    let name' :=
      if name = "" then
        (if filePath' = "" then "" else jsRelative ctx.cwd filePath')
      else name
    do
      let _ ← validateConfigSchema d (if name' = "" then filePath' else name')
      normalizeObjectConfigData ctx fuel d filePath' name'

/-- `_loadConfigData(filePath, name)`: read the config file and normalize. -/
def loadConfigData (ctx : Ctx) (fuel : Nat) (filePath : JsPath)
    (name : String) : Except JsError (List ConfigArrayElement) :=
  match fuel with
  | 0 => .error fuelError
  | fuel + 1 => do
    let d ← loadConfigFile ctx filePath
    normalizeConfigData ctx fuel d filePath name

/-- `_loadExtendedBuiltInConfig(extendName, importerName)`: exactly
`eslint:recommended` and `eslint:all` load the bundled configs; any other
name throws `configMissingError(extendName)`. -/
def loadExtendedBuiltInConfig (ctx : Ctx) (fuel : Nat) (extendName : String)
    (importerName : String) : Except JsError (List ConfigArrayElement) :=
  match fuel with
  | 0 => .error fuelError
  | fuel + 1 =>
    let name := importerName ++ " » " ++ extendName
    if extendName = "eslint:recommended" then
      loadConfigData ctx fuel eslintRecommendedPath name
    else if extendName = "eslint:all" then
      loadConfigData ctx fuel eslintAllPath name
    else .error (configMissingError extendName)

/-- `_loadExtendedPluginConfig(extendName, importerPath, importerName)`:
split at the last `/`, reject file-path plugin specifiers, load the plugin,
and normalize its named config; a missing config throws the plugin's own
captured error or `configMissingError`. -/
def loadExtendedPluginConfig (ctx : Ctx) (fuel : Nat) (extendName : String)
    (importerPath : JsPath) (importerName : String) :
    Except JsError (List ConfigArrayElement) :=
  match fuel with
  | 0 => .error fuelError
  | fuel + 1 =>
    let slashIndex : Int :=
      match lastIdxOf '/' extendName.toList with
      | some i => (i : Int)
      | none => -1
    let pluginName := jsSlice extendName 7 slashIndex
    let configName := jsSliceFrom extendName (slashIndex + 1)
    if isFilePath pluginName then
      .error (plainError "'extends' cannot use a file path for plugins.")
    else
      let plugin := loadPlugin ctx pluginName importerPath importerName
      let configData :=
        plugin.definition.bind (fun defn =>
          (defn.configs.find? (fun kv => kv.1 = configName)).map
            (fun kv => kv.2))
      match configData with
      | some cd =>
        normalizeConfigData ctx fuel cd plugin.filePath
          (importerName ++ " » plugin:" ++ plugin.id ++ "/" ++ configName)
      | none =>
        .error
          (match plugin.error with
           | some e => e
           | none => configMissingError extendName)

/-- `_loadExtendedShareableConfig(extendName, importerPath, importerName)`:
build the request (verbatim file path, dot-name made explicitly relative, or
`eslint-config` package form), resolve it relative to the importer (falling
back to `cwd + "/.eslintrc"`), and load it; a `MODULE_NOT_FOUND` anywhere in
that attempt becomes `configMissingError(extendName)`, any other failure is
rethrown. -/
def loadExtendedShareableConfig (ctx : Ctx) (fuel : Nat) (extendName : String)
    (importerPath : JsPath) (importerName : String) :
    Except JsError (List ConfigArrayElement) :=
  match fuel with
  | 0 => .error fuelError
  | fuel + 1 =>
    let relativeTo :=
      if importerPath = "" then joinPath ctx.cwd ".eslintrc" else importerPath
    let request :=
      if isFilePath extendName then extendName
      else if strStartsWith extendName "." then "./" ++ extendName
      else normalizePackageName extendName "eslint-config"
    match (do
        let filePath ← ctx.resolve request relativeTo
        loadConfigData ctx fuel filePath
          (importerName ++ " » " ++ request) :
        Except JsError (List ConfigArrayElement)) with
    | .ok r => .ok r
    | .error e =>
      if e.code ≠ some "MODULE_NOT_FOUND" then .error e
      else .error (configMissingError extendName)

/-- `_loadExtends(extendName, importerPath, importerName)`: dispatch on the
`eslint:` / `plugin:` / shareable forms; any failure gains a
`"\nReferenced from: ..."` suffix and is rethrown (extends failures are
always fatal). -/
def loadExtends (ctx : Ctx) (fuel : Nat) (extendName : String)
    (importerPath : JsPath) (importerName : String) :
    Except JsError (List ConfigArrayElement) :=
  match fuel with
  | 0 => .error fuelError
  | fuel + 1 =>
    let result :=
      if strStartsWith extendName "eslint:" then
        loadExtendedBuiltInConfig ctx fuel extendName importerName
      else if strStartsWith extendName "plugin:" then
        loadExtendedPluginConfig ctx fuel extendName importerPath importerName
      else
        loadExtendedShareableConfig ctx fuel extendName importerPath
          importerName
    match result with
    | .ok r => .ok r
    | .error e =>
      .error
        { e with message := e.message ++ "\nReferenced from: " ++
            (if importerPath = "" then importerName else importerPath) }

/-- The `extends` flattening loop of `_normalizeObjectConfigDataBody`: each
entry's flattened elements, concatenated in declared order. -/
def loadExtendsList (ctx : Ctx) (fuel : Nat) (names : List String)
    (filePath : JsPath) (name : String) :
    Except JsError (List ConfigArrayElement) :=
  match fuel with
  | 0 => .error fuelError
  | fuel + 1 =>
    match names with
    | [] => .ok []
    | n :: rest => do
      let a ← loadExtends ctx fuel n filePath name
      let b ← loadExtendsList ctx fuel rest filePath name
      pure (a ++ b)

/-- `_takeFileExtensionProcessors(plugins, filePath, name)` after the pseudo
configs have been synthesized: normalize each in order. -/
def takeFileExtensionProcessors (ctx : Ctx) (fuel : Nat)
    (items : List (ConfigData × String)) (filePath : JsPath) :
    Except JsError (List ConfigArrayElement) :=
  match fuel with
  | 0 => .error fuelError
  | fuel + 1 =>
    match items with
    | [] => .ok []
    | (cfg, nm) :: rest => do
      let a ← normalizeObjectConfigData ctx fuel cfg filePath nm
      let b ← takeFileExtensionProcessors ctx fuel rest filePath
      pure (a ++ b)

/-- The `overrides` flattening loop of `_normalizeObjectConfigDataBody`:
entry `i` is normalized with the same file path and the synthesized name
`<name>#overrides[<i>]`. -/
def flattenOverrides (ctx : Ctx) (fuel : Nat) (list : List ConfigData)
    (filePath : JsPath) (name : String) (i : Nat) :
    Except JsError (List ConfigArrayElement) :=
  match fuel with
  | 0 => .error fuelError
  | fuel + 1 =>
    match list with
    | [] => .ok []
    | o :: rest => do
      let a ← normalizeObjectConfigData ctx fuel o filePath
        (name ++ "#overrides[" ++ toString i ++ "]")
      let b ← flattenOverrides ctx fuel rest filePath name (i + 1)
      pure (a ++ b)

end

/-! ### Directory search and the public entry points -/

/-- The filename loop of `_loadConfigDataOnDirectory`: try each candidate in
order; a failure with code `ENOENT`, `MODULE_NOT_FOUND`, or
`ESLINT_CONFIG_FIELD_NOT_FOUND` is swallowed and the search continues; any
other failure is rethrown; the first candidate that loads is normalized and
returned; exhaustion yields `null` (no error). -/
def tryConfigFiles (ctx : Ctx) (fuel : Nat) (names : List String)
    (directoryPath : JsPath) (name : String) :
    Except JsError (Option (List ConfigArrayElement)) :=
  match names with
  | [] => .ok none
  | filename :: rest =>
    let filePath := joinPath directoryPath filename
    match loadConfigFile ctx filePath with
    | .ok d =>
      match normalizeConfigData ctx fuel d filePath name with
      | .ok elements => .ok (some elements)
      | .error e => .error e
    | .error e =>
      if e.code = some "ENOENT" ∨ e.code = some "MODULE_NOT_FOUND" ∨
         e.code = some "ESLINT_CONFIG_FIELD_NOT_FOUND" then
        tryConfigFiles ctx fuel rest directoryPath name
      else .error e

/-- `_loadConfigDataOnDirectory(directoryPath, name)`: run the candidate
loop over the fixed `configFilenames` list. -/
def loadConfigDataOnDirectory (ctx : Ctx) (fuel : Nat)
    (directoryPath : JsPath) (name : String) :
    Except JsError (Option (List ConfigArrayElement)) :=
  tryConfigFiles ctx fuel configFilenames directoryPath name

/-- Modelled from the spec: `config-array.js` is not among the given
sources.  Spec section 3: "two sequences may be concatenated (parent
prepended) only when the child sequence's first fragment does not declare
`root: true`" — the `configArray.root` test used by `createConfigArray`. -/
def configArrayRoot (elements : List ConfigArrayElement) : Bool :=
  match elements with
  | e :: _ => e.root = some true
  | [] => false

/-- `createConfigArray(elements, parentConfigArray)`: no elements yields the
parent (or an empty array); otherwise the parent is prepended unless the new
array declares root. -/
def createConfigArray (elements : Option (List ConfigArrayElement))
    (parentConfigArray : Option (List ConfigArrayElement)) :
    List ConfigArrayElement :=
  match elements with
  | none =>
    match parentConfigArray with
    | some p => p
    | none => []
  | some es =>
    match parentConfigArray with
    | some p => if configArrayRoot es then es else p ++ es
    | none => es

/-- `ConfigArrayFactory#create(configData, {filePath, name, parent})`. -/
def ConfigArrayFactory.create (ctx : Ctx) (fuel : Nat)
    (configData : Option ConfigData) (filePath : JsPath) (name : String)
    (parent : Option (List ConfigArrayElement)) :
    Except JsError (List ConfigArrayElement) :=
  match configData with
  | none => .ok (createConfigArray none parent)
  | some d => do
    let elements ← normalizeConfigData ctx fuel d filePath name
    pure (createConfigArray (some elements) parent)

/-- `ConfigArrayFactory#loadFile(filePath, {name, parent})`. -/
def ConfigArrayFactory.loadFile (ctx : Ctx) (fuel : Nat) (filePath : JsPath)
    (name : String) (parent : Option (List ConfigArrayElement)) :
    Except JsError (List ConfigArrayElement) := do
  let absolutePath := jsResolvePath ctx.cwd filePath
  let elements ← loadConfigData ctx fuel absolutePath name
  pure (createConfigArray (some elements) parent)

/-- `ConfigArrayFactory#loadOnDirectory(directoryPath, {name, parent})`. -/
def ConfigArrayFactory.loadOnDirectory (ctx : Ctx) (fuel : Nat)
    (directoryPath : JsPath) (name : String)
    (parent : Option (List ConfigArrayElement)) :
    Except JsError (List ConfigArrayElement) := do
  let absolutePath := jsResolvePath ctx.cwd directoryPath
  let elements ← loadConfigDataOnDirectory ctx fuel absolutePath name
  pure (createConfigArray elements parent)

/-! ### Basic inversion lemmas -/

theorem except_bind_ok {ε α β : Type} {x : Except ε α} {f : α → Except ε β}
    {b : β} : (x >>= f) = .ok b ↔ ∃ a, x = .ok a ∧ f a = .ok b := by
  cases x <;> simp [Bind.bind, Except.bind]

theorem except_pure_eq {ε α : Type} (a : α) :
    (pure a : Except ε α) = .ok a := rfl

/-- Post-processing an element: either the composed criteria is null (and
the element's `root` is untouched), or it is non-null with the level's base
path stamped and `root` forced to `undefined`. -/
theorem applyCriteria_spec (b : JsPath) (c : Option OverrideTester)
    (el : ConfigArrayElement) :
    ((applyCriteria b c el).criteria = none ∧
      (applyCriteria b c el).root = el.root) ∨
    (∃ t, (applyCriteria b c el).criteria = some t ∧ t.basePath = b ∧
      (applyCriteria b c el).root = none) := by
  unfold applyCriteria
  cases hA : OverrideTester.and c el.criteria with
  | none => exact Or.inl ⟨rfl, rfl⟩
  | some v => exact Or.inr ⟨⟨v.patterns, b⟩, rfl, rfl, rfl⟩

/-- Inversion for `_normalizeObjectConfigData`: a successful result is the
body's elements with this level's criteria applied to each. -/
theorem normalizeObjectConfigData_ok_inv (ctx : Ctx) (fuel : Nat)
    (d : ConfigData) (filePath : JsPath) (name : String)
    (l : List ConfigArrayElement)
    (h : normalizeObjectConfigData ctx fuel d filePath name = .ok l) :
    ∃ fuel' elements,
      fuel = fuel' + 1 ∧
      normalizeObjectConfigDataBody ctx fuel' d filePath name = .ok elements ∧
      l = elements.map
        (applyCriteria (if filePath = "" then ctx.cwd else dirname filePath)
          (OverrideTester.create d.files d.excludedFiles
            (if filePath = "" then ctx.cwd else dirname filePath))) := by
  cases fuel with
  | zero => simp [normalizeObjectConfigData] at h
  | succ k =>
    rw [normalizeObjectConfigData] at h
    rw [except_bind_ok] at h
    obtain ⟨elements, hbody, hmap⟩ := h
    exact ⟨k, elements, rfl, hbody, by
      have := hmap
      simp only [except_pure_eq, Except.ok.injEq] at this
      exact this.symm⟩

/-- The root/base-path invariant for every element of a successful
`_normalizeObjectConfigData` call: a non-null criteria means the criteria's
base path is this level's base path and `root` is `undefined`. -/
theorem normalizeObjectConfigData_invariant (ctx : Ctx) (fuel : Nat)
    (d : ConfigData) (filePath : JsPath) (name : String)
    (l : List ConfigArrayElement)
    (h : normalizeObjectConfigData ctx fuel d filePath name = .ok l) :
    ∀ e ∈ l, ∀ t, e.criteria = some t →
      t.basePath = (if filePath = "" then ctx.cwd else dirname filePath) ∧
      e.root = none := by
  obtain ⟨fuel', elements, -, -, hl⟩ :=
    normalizeObjectConfigData_ok_inv ctx fuel d filePath name l h
  subst hl
  intro e he t ht
  obtain ⟨el, -, rfl⟩ := List.mem_map.mp he
  rcases applyCriteria_spec (if filePath = "" then ctx.cwd else dirname filePath)
      (OverrideTester.create d.files d.excludedFiles
        (if filePath = "" then ctx.cwd else dirname filePath)) el with
    ⟨hnone, -⟩ | ⟨t', hsome, hbp, hroot⟩
  · rw [hnone] at ht
    exact absurd ht (by simp)
  · rw [hsome] at ht
    cases ht
    exact ⟨hbp, hroot⟩

/-- The resolved entry file path of `_normalizeConfigData`. -/
def entryFilePath (ctx : Ctx) (filePath : JsPath) : JsPath :=
  if filePath = "" then "" else jsResolvePath ctx.cwd filePath

/-- The defaulted config name of `_normalizeConfigData`. -/
def entryName (ctx : Ctx) (filePath : JsPath) (name : String) : String :=
  if name = "" then
    (if entryFilePath ctx filePath = "" then ""
     else jsRelative ctx.cwd (entryFilePath ctx filePath))
  else name

/-- `_normalizeConfigData` is `_normalizeObjectConfigData` at the resolved
path and defaulted name (schema validation of the typed config data always
succeeds). -/
theorem normalizeConfigData_eq (ctx : Ctx) (fuel : Nat) (d : ConfigData)
    (filePath : JsPath) (name : String) :
    normalizeConfigData ctx (fuel + 1) d filePath name =
      normalizeObjectConfigData ctx fuel d (entryFilePath ctx filePath)
        (entryName ctx filePath name) := rfl

theorem normalizeConfigData_ok_inv (ctx : Ctx) (fuel : Nat) (d : ConfigData)
    (filePath : JsPath) (name : String) (l : List ConfigArrayElement)
    (h : normalizeConfigData ctx fuel d filePath name = .ok l) :
    ∃ fuel', fuel = fuel' + 1 ∧
      normalizeObjectConfigData ctx fuel' d (entryFilePath ctx filePath)
        (entryName ctx filePath name) = .ok l := by
  cases fuel with
  | zero => simp [normalizeConfigData] at h
  | succ k => exact ⟨k, rfl, (normalizeConfigData_eq ctx k d filePath name) ▸ h⟩

theorem loadConfigData_ok_inv (ctx : Ctx) (fuel : Nat) (filePath : JsPath)
    (name : String) (l : List ConfigArrayElement)
    (h : loadConfigData ctx fuel filePath name = .ok l) :
    ∃ fuel' d, fuel = fuel' + 1 ∧ loadConfigFile ctx filePath = .ok d ∧
      normalizeConfigData ctx fuel' d filePath name = .ok l := by
  cases fuel with
  | zero => simp [loadConfigData] at h
  | succ k =>
    rw [loadConfigData] at h
    rw [except_bind_ok] at h
    obtain ⟨d, hd, hn⟩ := h
    exact ⟨k, d, rfl, hd, hn⟩

theorem tryConfigFiles_ok_some_inv (ctx : Ctx) (fuel : Nat)
    (names : List String) (directoryPath : JsPath) (name : String)
    (l : List ConfigArrayElement)
    (h : tryConfigFiles ctx fuel names directoryPath name = .ok (some l)) :
    ∃ d filePath, loadConfigFile ctx filePath = .ok d ∧
      normalizeConfigData ctx fuel d filePath name = .ok l := by
  induction names with
  | nil => simp [tryConfigFiles] at h
  | cons f rest ih =>
    rw [tryConfigFiles] at h
    cases hcf : loadConfigFile ctx (joinPath directoryPath f) with
    | ok d =>
      simp only [hcf] at h
      cases hn : normalizeConfigData ctx fuel d (joinPath directoryPath f)
          name with
      | ok elements =>
        simp only [hn, Except.ok.injEq, Option.some.injEq] at h
        subst h
        exact ⟨d, joinPath directoryPath f, hcf, hn⟩
      | error e =>
        simp only [hn] at h
        exact Except.noConfusion h
    | error e =>
      simp only [hcf] at h
      by_cases hsw : e.code = some "ENOENT" ∨ e.code = some "MODULE_NOT_FOUND"
          ∨ e.code = some "ESLINT_CONFIG_FIELD_NOT_FOUND"
      · rw [if_pos hsw] at h
        exact ih h
      · rw [if_neg hsw] at h
        simp at h

theorem create_ok_inv (ctx : Ctx) (fuel : Nat) (cd : Option ConfigData)
    (filePath : JsPath) (name : String) (l : List ConfigArrayElement)
    (h : ConfigArrayFactory.create ctx fuel cd filePath name none = .ok l) :
    l = [] ∨ ∃ d, cd = some d ∧
      normalizeConfigData ctx fuel d filePath name = .ok l := by
  cases cd with
  | none =>
    left
    cases h
    rfl
  | some d =>
    right
    rw [ConfigArrayFactory.create] at h
    rw [except_bind_ok] at h
    obtain ⟨elements, hn, hp⟩ := h
    refine ⟨d, rfl, ?_⟩
    cases hp
    exact hn

theorem loadFile_ok_inv (ctx : Ctx) (fuel : Nat) (filePath : JsPath)
    (name : String) (l : List ConfigArrayElement)
    (h : ConfigArrayFactory.loadFile ctx fuel filePath name none = .ok l) :
    loadConfigData ctx fuel (jsResolvePath ctx.cwd filePath) name = .ok l := by
  rw [ConfigArrayFactory.loadFile] at h
  rw [except_bind_ok] at h
  obtain ⟨elements, hl, hp⟩ := h
  cases hp
  exact hl

theorem loadOnDirectory_ok_inv (ctx : Ctx) (fuel : Nat)
    (directoryPath : JsPath) (name : String) (l : List ConfigArrayElement)
    (h : ConfigArrayFactory.loadOnDirectory ctx fuel directoryPath name none =
      .ok l) :
    l = [] ∨
      tryConfigFiles ctx fuel configFilenames
        (jsResolvePath ctx.cwd directoryPath) name = .ok (some l) := by
  rw [ConfigArrayFactory.loadOnDirectory] at h
  rw [except_bind_ok] at h
  obtain ⟨elements, hl, hp⟩ := h
  cases elements with
  | none =>
    left
    cases hp
    rfl
  | some es =>
    right
    cases hp
    exact hl

/-! ### Claim C2 -/

/-- C2: For every fragment emitted by resolution (`create`, `loadFile`, or
`loadOnDirectory`), if the fragment's criteria is non-null then its `root`
field equals `undefined`, regardless of whether the source config (including
one reached through `extends` under an override) declared `root: true`. -/
theorem C2_scoped_fragment_root_is_undefined :
    (∀ ctx fuel cd filePath name l,
      ConfigArrayFactory.create ctx fuel cd filePath name none = .ok l →
      ∀ e ∈ l, ∀ t, e.criteria = some t → e.root = none) ∧
    (∀ ctx fuel filePath name l,
      ConfigArrayFactory.loadFile ctx fuel filePath name none = .ok l →
      ∀ e ∈ l, ∀ t, e.criteria = some t → e.root = none) ∧
    (∀ ctx fuel directoryPath name l,
      ConfigArrayFactory.loadOnDirectory ctx fuel directoryPath name none =
        .ok l →
      ∀ e ∈ l, ∀ t, e.criteria = some t → e.root = none) := by
  refine ⟨?_, ?_, ?_⟩
  · intro ctx fuel cd filePath name l h e he t ht
    rcases create_ok_inv ctx fuel cd filePath name l h with rfl | ⟨d, -, hn⟩
    · exact absurd he (List.not_mem_nil e)
    · obtain ⟨fuel', -, hnocd⟩ :=
        normalizeConfigData_ok_inv ctx fuel d filePath name l hn
      exact (normalizeObjectConfigData_invariant ctx fuel' d _ _ l hnocd
        e he t ht).2
  · intro ctx fuel filePath name l h e he t ht
    obtain ⟨fuel', d, -, -, hn⟩ :=
      loadConfigData_ok_inv ctx fuel _ name l (loadFile_ok_inv _ _ _ _ _ h)
    obtain ⟨fuel'', -, hnocd⟩ :=
      normalizeConfigData_ok_inv ctx fuel' d _ name l hn
    exact (normalizeObjectConfigData_invariant ctx fuel'' d _ _ l hnocd
      e he t ht).2
  · intro ctx fuel directoryPath name l h e he t ht
    rcases loadOnDirectory_ok_inv ctx fuel directoryPath name l h with
      rfl | htry
    · exact absurd he (List.not_mem_nil e)
    · obtain ⟨d, filePath', -, hn⟩ :=
        tryConfigFiles_ok_some_inv ctx fuel configFilenames _ name l htry
      obtain ⟨fuel', -, hnocd⟩ :=
        normalizeConfigData_ok_inv ctx fuel d filePath' name l hn
      exact (normalizeObjectConfigData_invariant ctx fuel' d _ _ l hnocd
        e he t ht).2

/-! ### Shared concrete witness material -/

/-- A resolver environment in which no module resolves. -/
def wctx : Ctx :=
  ⟨[], [], "/cwd",
   fun req _ =>
     .error ⟨"Cannot find module '" ++ req ++ "'", some "MODULE_NOT_FOUND",
             none, []⟩,
   fun _ =>
     .error ⟨"Cannot find module", some "MODULE_NOT_FOUND", none, []⟩,
   fun _ => .missing,
   plainModule "espree", "/espree"⟩

/-- A config declaring `root: true` and `files`, with one override that also
declares `root: true`. -/
def cfgWithOverride : ConfigData :=
  .mk none none none none none .nil none none none (some true)
    (some ["*.js"]) none
    [.mk none none none none none .nil none none none (some true)
      (some ["*.test.js"]) none []]

/-- The override-derived fragment of `cfgWithOverride` after resolution. -/
def w2elem : ConfigArrayElement :=
  ⟨"cfg#overrides[0]", "/proj/.eslintrc.js",
   some ⟨[⟨["*.js"], []⟩, ⟨["*.test.js"], []⟩], "/proj"⟩,
   none, none, none, none, none, none, none, none, none⟩

/-- Witness for C2 at a concrete input: the override fragment of
`cfgWithOverride` (whose source declared `root: true`) comes out with a
non-null criteria and `root` equal to `undefined`. -/
theorem C2_scoped_fragment_root_is_undefined_witness :
    ConfigArrayFactory.create wctx 9 (some cfgWithOverride)
      "/proj/.eslintrc.js" "cfg" none =
    .ok [⟨"cfg", "/proj/.eslintrc.js",
          some ⟨[⟨["*.js"], []⟩], "/proj"⟩,
          none, none, none, none, none, none, none, none, none⟩,
         w2elem] ∧
    w2elem.root = none := by
  have h : ConfigArrayFactory.create wctx 9 (some cfgWithOverride)
      "/proj/.eslintrc.js" "cfg" none =
      .ok [⟨"cfg", "/proj/.eslintrc.js",
            some ⟨[⟨["*.js"], []⟩], "/proj"⟩,
            none, none, none, none, none, none, none, none, none⟩,
           w2elem] := rfl
  exact ⟨h, C2_scoped_fragment_root_is_undefined.1 wctx 9
    (some cfgWithOverride) "/proj/.eslintrc.js" "cfg" _ h w2elem
    (by simp) ⟨[⟨["*.js"], []⟩, ⟨["*.test.js"], []⟩], "/proj"⟩ rfl⟩

/-! ### Claim C4 -/

theorem jsIsAbsolute_ne_empty (p : JsPath) (h : jsIsAbsolute p = true) :
    p ≠ "" := by
  intro he
  subst he
  simp [jsIsAbsolute, strStartsWith, List.isPrefixOf] at h

theorem jsResolvePath_absolute (base p : JsPath)
    (h : jsIsAbsolute p = true) : jsResolvePath base p = p := by
  simp [jsResolvePath, h]

/-- C4: For every fragment with a non-null composed criteria in the result
of a load call, the criteria's `basePath` equals the directory of the
outermost (entry) config source of that load call — never the directory of
an intermediate `extends` source — because it is reassigned at each unwind
step of the recursion. -/
theorem C4_criteria_basePath_is_entry_directory :
    (∀ ctx fuel d filePath name l,
      normalizeObjectConfigData ctx fuel d filePath name = .ok l →
      ∀ e ∈ l, ∀ t, e.criteria = some t →
        t.basePath = (if filePath = "" then ctx.cwd else dirname filePath)) ∧
    (∀ ctx fuel filePath name l,
      jsIsAbsolute filePath = true →
      ConfigArrayFactory.loadFile ctx fuel filePath name none = .ok l →
      ∀ e ∈ l, ∀ t, e.criteria = some t → t.basePath = dirname filePath) := by
  constructor
  · intro ctx fuel d filePath name l h e he t ht
    exact (normalizeObjectConfigData_invariant ctx fuel d filePath name l h
      e he t ht).1
  · intro ctx fuel filePath name l habs h e he t ht
    obtain ⟨fuel', d, -, -, hn⟩ :=
      loadConfigData_ok_inv ctx fuel _ name l (loadFile_ok_inv _ _ _ _ _ h)
    rw [jsResolvePath_absolute ctx.cwd filePath habs] at hn
    obtain ⟨fuel'', -, hnocd⟩ :=
      normalizeConfigData_ok_inv ctx fuel' d filePath name l hn
    have hbp := (normalizeObjectConfigData_invariant ctx fuel'' d _ _ l hnocd
      e he t ht).1
    rw [entryFilePath, if_neg (jsIsAbsolute_ne_empty filePath habs),
      jsResolvePath_absolute ctx.cwd filePath habs] at hbp
    rw [hbp, if_neg (jsIsAbsolute_ne_empty filePath habs)]

/-- `wctx` with `cfgWithOverride` on disk at `/proj/.eslintrc.js`. -/
def wctxFile : Ctx :=
  { wctx with readConfigFile := fun p =>
      if p = "/proj/.eslintrc.js" then .config cfgWithOverride
      else .missing }

/-- Witness for C4 at a concrete input: loading `/proj/.eslintrc.js` yields
criteria-bearing fragments whose `basePath` is `/proj`, including the
override-derived one. -/
theorem C4_criteria_basePath_is_entry_directory_witness :
    jsIsAbsolute "/proj/.eslintrc.js" = true ∧
    ConfigArrayFactory.loadFile wctxFile 9 "/proj/.eslintrc.js" "cfg" none =
    .ok [⟨"cfg", "/proj/.eslintrc.js",
          some ⟨[⟨["*.js"], []⟩], "/proj"⟩,
          none, none, none, none, none, none, none, none, none⟩,
         w2elem] ∧
    (⟨[⟨["*.js"], []⟩, ⟨["*.test.js"], []⟩], "/proj"⟩ :
      OverrideTester).basePath = dirname "/proj/.eslintrc.js" := by
  have h : ConfigArrayFactory.loadFile wctxFile 9 "/proj/.eslintrc.js" "cfg"
      none =
      .ok [⟨"cfg", "/proj/.eslintrc.js",
            some ⟨[⟨["*.js"], []⟩], "/proj"⟩,
            none, none, none, none, none, none, none, none, none⟩,
           w2elem] := rfl
  exact ⟨rfl, h, C4_criteria_basePath_is_entry_directory.2 wctxFile 9
    "/proj/.eslintrc.js" "cfg" _ rfl h w2elem (by simp)
    ⟨[⟨["*.js"], []⟩, ⟨["*.test.js"], []⟩], "/proj"⟩ rfl⟩

/-! ### Claim C3 -/

theorem overrideTester_and_some_some (a b : OverrideTester) :
    OverrideTester.and (some a) (some b) =
      some ⟨a.patterns ++ b.patterns, a.basePath⟩ := rfl

theorem overrideTester_test_append (u v : OverrideTester) (p : JsPath)
    (huv : u.basePath = v.basePath) :
    OverrideTester.test ⟨u.patterns ++ v.patterns, u.basePath⟩ p =
      (u.test p && v.test p) := by
  simp [OverrideTester.test, List.all_append, huv]

/-- C3: For every config level with criteria X containing an `overrides`
entry with criteria Y, the emitted grandchild fragment's effective criteria
equals `AND(X, Y)`; `AND` treats a null operand as identity, and a path
matches `AND(X, Y)` exactly when it matches both X and Y, independent of
composition order.  (The `OverrideTester` algebra is modelled from the spec;
the composition site is `_normalizeObjectConfigData`.) -/
theorem C3_override_criteria_is_and_composition :
    (∀ c : Option OverrideTester,
      OverrideTester.and none c = c ∧ OverrideTester.and c none = c) ∧
    (∀ (a b : OverrideTester) (p : JsPath), a.basePath = b.basePath →
      optTest (OverrideTester.and (some a) (some b)) p =
        (a.test p && b.test p) ∧
      optTest (OverrideTester.and (some a) (some b)) p =
        optTest (OverrideTester.and (some b) (some a)) p) ∧
    (∀ ctx fuel env gl po ru se proc rootFlag fd exF
        env2 gl2 po2 ru2 se2 proc2 rootFlag2 fo exO fp nm,
      normalizeObjectConfigData ctx (fuel + 7)
        (ConfigData.mk env gl po ru se .nil none none proc rootFlag
          (some fd) exF
          [ConfigData.mk env2 gl2 po2 ru2 se2 .nil none none proc2 rootFlag2
            (some fo) exO []])
        fp nm =
      .ok [⟨nm, fp,
            some ⟨[⟨fd, exF.getD []⟩],
              if fp = "" then ctx.cwd else dirname fp⟩,
            env, gl, none, po, none, proc, none, ru, se⟩,
           ⟨nm ++ "#overrides[" ++ toString (0 : Nat) ++ "]", fp,
            some ⟨[⟨fd, exF.getD []⟩, ⟨fo, exO.getD []⟩],
              if fp = "" then ctx.cwd else dirname fp⟩,
            env2, gl2, none, po2, none, proc2, none, ru2, se2⟩] ∧
      (some (⟨[⟨fd, exF.getD []⟩, ⟨fo, exO.getD []⟩],
          if fp = "" then ctx.cwd else dirname fp⟩ : OverrideTester)) =
        OverrideTester.and
          (OverrideTester.create (some fd) exF
            (if fp = "" then ctx.cwd else dirname fp))
          (OverrideTester.create (some fo) exO
            (if fp = "" then ctx.cwd else dirname fp))) := by
  refine ⟨?_, ?_, ?_⟩
  · intro c
    cases c <;> simp [OverrideTester.and]
  · intro a b p h
    constructor
    · rw [overrideTester_and_some_some]
      show OverrideTester.test _ p = _
      exact overrideTester_test_append a b p h
    · rw [overrideTester_and_some_some, overrideTester_and_some_some]
      show OverrideTester.test _ p = OverrideTester.test _ p
      rw [overrideTester_test_append a b p h,
        overrideTester_test_append b a p h.symm, Bool.and_comm]
  · intro ctx fuel env gl po ru se proc rootFlag fd exF
      env2 gl2 po2 ru2 se2 proc2 rootFlag2 fo exO fp nm
    exact ⟨rfl, rfl⟩

/-- Witness for C3 at concrete inputs: the `cfgWithOverride` grandchild
criteria is the AND of the two compiled criteria, and matching outcomes are
conjunctive and order-independent on a concrete path. -/
theorem C3_override_criteria_is_and_composition_witness :
    (⟨[⟨["*.js"], []⟩], "/proj"⟩ : OverrideTester).basePath =
      (⟨[⟨["*.test.js"], []⟩], "/proj"⟩ : OverrideTester).basePath ∧
    optTest (OverrideTester.and (some ⟨[⟨["*.js"], []⟩], "/proj"⟩)
        (some ⟨[⟨["*.test.js"], []⟩], "/proj"⟩)) "/proj/a.test.js" =
      ((⟨[⟨["*.js"], []⟩], "/proj"⟩ : OverrideTester).test "/proj/a.test.js"
        && (⟨[⟨["*.test.js"], []⟩], "/proj"⟩ : OverrideTester).test
          "/proj/a.test.js") ∧
    normalizeObjectConfigData wctx 9 cfgWithOverride "/proj/.eslintrc.js"
        "cfg" =
      .ok [⟨"cfg", "/proj/.eslintrc.js",
            some ⟨[⟨["*.js"], []⟩], "/proj"⟩,
            none, none, none, none, none, none, none, none, none⟩,
           w2elem] := by
  refine ⟨rfl, ?_, ?_⟩
  · exact (C3_override_criteria_is_and_composition.2.1
      ⟨[⟨["*.js"], []⟩], "/proj"⟩ ⟨[⟨["*.test.js"], []⟩], "/proj"⟩
      "/proj/a.test.js" rfl).1
  · have h := (C3_override_criteria_is_and_composition.2.2 wctx 2
      none none none none none none (some true) ["*.js"] none
      none none none none none none (some true) ["*.test.js"] none
      "/proj/.eslintrc.js" "cfg").1
    exact h

/-! ### Claim C8 -/

/-- C8: For every `extends` entry of the form `eslint:<name>`, resolution
succeeds only for exactly `eslint:recommended` and `eslint:all`; any other
`eslint:`-prefixed name raises a MissingExtendError naming the offending
identifier (annotated with the "Referenced from" context by `_loadExtends`). -/
theorem C8_builtin_extends_exactly_two :
    (∀ ctx fuel extendName importerPath importerName,
      strStartsWith extendName "eslint:" = true →
      extendName ≠ "eslint:recommended" → extendName ≠ "eslint:all" →
      loadExtends ctx (fuel + 2) extendName importerPath importerName =
        .error { configMissingError extendName with
          message := (configMissingError extendName).message ++
            "\nReferenced from: " ++
            (if importerPath = "" then importerName else importerPath) }) ∧
    (∀ ctx fuel importerPath importerName l,
      loadConfigData ctx fuel eslintRecommendedPath
        (importerName ++ " » " ++ "eslint:recommended") = .ok l →
      loadExtends ctx (fuel + 2) "eslint:recommended" importerPath
        importerName = .ok l) ∧
    (∀ ctx fuel importerPath importerName l,
      loadConfigData ctx fuel eslintAllPath
        (importerName ++ " » " ++ "eslint:all") = .ok l →
      loadExtends ctx (fuel + 2) "eslint:all" importerPath importerName =
        .ok l) := by
  refine ⟨?_, ?_, ?_⟩
  · intro ctx fuel extendName importerPath importerName h1 h2 h3
    have hb : loadExtendedBuiltInConfig ctx (fuel + 1) extendName
        importerName = .error (configMissingError extendName) := by
      show (if extendName = "eslint:recommended" then _
            else if extendName = "eslint:all" then _
            else Except.error (configMissingError extendName)) = _
      rw [if_neg h2, if_neg h3]
    show (match (if strStartsWith extendName "eslint:" = true then
            loadExtendedBuiltInConfig ctx (fuel + 1) extendName importerName
          else if strStartsWith extendName "plugin:" = true then
            loadExtendedPluginConfig ctx (fuel + 1) extendName importerPath
              importerName
          else
            loadExtendedShareableConfig ctx (fuel + 1) extendName
              importerPath importerName) with
          | .ok r => Except.ok r
          | .error e =>
            Except.error
              { e with message := e.message ++ "\nReferenced from: " ++
                  (if importerPath = "" then importerName else importerPath) })
        = _
    rw [if_pos h1, hb]
  · intro ctx fuel importerPath importerName l h
    have e1 : loadExtends ctx (fuel + 2) "eslint:recommended" importerPath
        importerName =
        (match loadConfigData ctx fuel eslintRecommendedPath
            (importerName ++ " » " ++ "eslint:recommended") with
         | .ok r => Except.ok r
         | .error e =>
           Except.error
             { e with message := e.message ++ "\nReferenced from: " ++
                 (if importerPath = "" then importerName else importerPath) }) :=
      rfl
    rw [e1, h]
  · intro ctx fuel importerPath importerName l h
    have e1 : loadExtends ctx (fuel + 2) "eslint:all" importerPath
        importerName =
        (match loadConfigData ctx fuel eslintAllPath
            (importerName ++ " » " ++ "eslint:all") with
         | .ok r => Except.ok r
         | .error e =>
           Except.error
             { e with message := e.message ++ "\nReferenced from: " ++
                 (if importerPath = "" then importerName else importerPath) }) :=
      rfl
    rw [e1, h]

/-- The bundled `eslint:recommended` config data used in witnesses. -/
def recData : ConfigData :=
  .mk none none none (some "recommended-rules") none .nil none none none
    none none none []

/-- `wctx` with the bundled `eslint:recommended` config on disk. -/
def wctxRec : Ctx :=
  { wctx with readConfigFile := fun p =>
      if p = eslintRecommendedPath then .config recData else .missing }

/-- Witness for C8 at concrete inputs: `eslint:foo` raises the
missing-extend error naming `eslint:foo`, while `eslint:recommended` loads
the bundled config. -/
theorem C8_builtin_extends_exactly_two_witness :
    strStartsWith "eslint:foo" "eslint:" = true ∧
    loadExtends wctx 5 "eslint:foo" "/a/b" "nm" =
      .error ⟨"Failed to load config \x22eslint:foo\x22 to extend from." ++
              "\nReferenced from: " ++ "/a/b",
              none, some "extend-config-missing",
              [("configName", "eslint:foo")]⟩ ∧
    loadConfigData wctxRec 5 eslintRecommendedPath
      ("nm" ++ " » " ++ "eslint:recommended") =
      .ok [⟨"nm » eslint:recommended", eslintRecommendedPath, none,
            none, none, none, none, none, none, none,
            some "recommended-rules", none⟩] ∧
    loadExtends wctxRec 7 "eslint:recommended" "/a/b" "nm" =
      .ok [⟨"nm » eslint:recommended", eslintRecommendedPath, none,
            none, none, none, none, none, none, none,
            some "recommended-rules", none⟩] := by
  have hrec : loadConfigData wctxRec 5 eslintRecommendedPath
      ("nm" ++ " » " ++ "eslint:recommended") =
      .ok [⟨"nm » eslint:recommended", eslintRecommendedPath, none,
            none, none, none, none, none, none, none,
            some "recommended-rules", none⟩] := rfl
  refine ⟨rfl, ?_, hrec, ?_⟩
  · exact C8_builtin_extends_exactly_two.1 wctx 3 "eslint:foo" "/a/b" "nm"
      rfl (by decide) (by decide)
  · exact C8_builtin_extends_exactly_two.2.1 wctxRec 5 "/a/b" "nm" _ hrec

/-! ### One-step unfolding equations for the engine (at successor fuel) -/

theorem normalizeObjectConfigData_succ (ctx : Ctx) (fuel : Nat)
    (d : ConfigData) (fp : JsPath) (nm : String) :
    normalizeObjectConfigData ctx (fuel + 1) d fp nm =
      Except.bind (normalizeObjectConfigDataBody ctx fuel d fp nm)
        (fun elements => Except.ok (elements.map (applyCriteria
          (if fp = "" then ctx.cwd else dirname fp)
          (OverrideTester.create d.files d.excludedFiles
            (if fp = "" then ctx.cwd else dirname fp))))) := rfl

theorem normalizeObjectConfigDataBody_succ (ctx : Ctx) (fuel : Nat)
    (d : ConfigData) (fp : JsPath) (nm : String) :
    normalizeObjectConfigDataBody ctx (fuel + 1) d fp nm =
      Except.bind (loadExtendsList ctx fuel d.ext.toList fp nm)
        (fun extFrags =>
      Except.bind (loadPluginsField ctx d.plugins fp nm)
        (fun plugins =>
      Except.bind (takeFileExtensionProcessors ctx fuel
        (pseudoConfigsOfPlugins plugins nm) fp)
        (fun procFrags =>
      Except.bind (flattenOverrides ctx fuel d.overrides fp nm 0)
        (fun overrideFrags =>
      Except.ok (extFrags ++ procFrags ++
        [⟨nm, fp, none, d.env, d.globals,
          d.parser.map (fun pn => loadParser ctx pn fp nm),
          d.parserOptions, plugins, d.processor, d.root, d.rules,
          d.settings⟩] ++ overrideFrags))))) := rfl

theorem loadExtendsList_succ_nil (ctx : Ctx) (fuel : Nat) (fp : JsPath)
    (nm : String) : loadExtendsList ctx (fuel + 1) [] fp nm = .ok [] := rfl

theorem loadExtendsList_succ_cons (ctx : Ctx) (fuel : Nat) (n : String)
    (rest : List String) (fp : JsPath) (nm : String) :
    loadExtendsList ctx (fuel + 1) (n :: rest) fp nm =
      Except.bind (loadExtends ctx fuel n fp nm) (fun a =>
      Except.bind (loadExtendsList ctx fuel rest fp nm) (fun b =>
      Except.ok (a ++ b))) := rfl

theorem takeFileExtensionProcessors_succ_nil (ctx : Ctx) (fuel : Nat)
    (fp : JsPath) :
    takeFileExtensionProcessors ctx (fuel + 1) [] fp = .ok [] := rfl

theorem takeFileExtensionProcessors_succ_cons (ctx : Ctx) (fuel : Nat)
    (cfg : ConfigData) (nm : String) (rest : List (ConfigData × String))
    (fp : JsPath) :
    takeFileExtensionProcessors ctx (fuel + 1) ((cfg, nm) :: rest) fp =
      Except.bind (normalizeObjectConfigData ctx fuel cfg fp nm) (fun a =>
      Except.bind (takeFileExtensionProcessors ctx fuel rest fp) (fun b =>
      Except.ok (a ++ b))) := rfl

theorem flattenOverrides_succ_nil (ctx : Ctx) (fuel : Nat) (fp : JsPath)
    (nm : String) (i : Nat) :
    flattenOverrides ctx (fuel + 1) [] fp nm i = .ok [] := rfl

theorem flattenOverrides_succ_cons (ctx : Ctx) (fuel : Nat) (o : ConfigData)
    (rest : List ConfigData) (fp : JsPath) (nm : String) (i : Nat) :
    flattenOverrides ctx (fuel + 1) (o :: rest) fp nm i =
      Except.bind (normalizeObjectConfigData ctx fuel o fp
        (nm ++ "#overrides[" ++ toString i ++ "]")) (fun a =>
      Except.bind (flattenOverrides ctx fuel rest fp nm (i + 1)) (fun b =>
      Except.ok (a ++ b))) := rfl

theorem except_bind_error {ε α β : Type} (e : ε) (f : α → Except ε β) :
    Except.bind (.error e) f = .error e := rfl

theorem except_bind_ok_left {ε α β : Type} (a : α) (f : α → Except ε β) :
    Except.bind (.ok a) f = f a := rfl

/-! ### Claim C10 -/

/-- The fold of `_loadPlugins` up to the first file-path entry. -/
theorem loadPlugins_filePath_error (ctx : Ctx) (importerPath : JsPath)
    (importerName : String) (pre : List String) (p : String)
    (post : List String) (hpre : ∀ q ∈ pre, isFilePath q = false)
    (hp : isFilePath p = true) :
    loadPlugins ctx (pre ++ p :: post) importerPath importerName =
      .error (plainError "Plugins array cannot includes file paths.") := by
  have key : ∀ (pr : List String)
      (acc : List (String × ConfigDependency)),
      (∀ q ∈ pr, isFilePath q = false) →
      List.foldlM
        (fun m name =>
          if isFilePath name then
            Except.error (plainError "Plugins array cannot includes file paths.")
          else
            let plugin := loadPlugin ctx name importerPath importerName
            Except.ok (assocSet m plugin.id plugin))
        acc (pr ++ p :: post) =
        .error (plainError "Plugins array cannot includes file paths.") := by
    intro pr
    induction pr with
    | nil =>
      intro acc _
      show Except.bind (if isFilePath p = true then _ else _) _ = _
      rw [if_pos hp]
      rfl
    | cons q pr' ih =>
      intro acc hq
      show Except.bind (if isFilePath q = true then _ else _) _ = _
      rw [if_neg (by simp [hq q (by simp)])]
      exact ih _ (fun r hr => hq r (by simp [hr]))
  exact key pre [] hpre

/-- C10: For every `plugins` list containing an entry that is a file path
(starts with `./`, `../`, or is absolute), resolution throws immediately
with a fatal error ("Plugins array cannot includes file paths.") instead of
capturing a deferred dependency failure. -/
theorem C10_plugins_file_path_entry_is_fatal :
    (∀ ctx importerPath importerName pre p post,
      (∀ q ∈ pre, isFilePath q = false) → isFilePath p = true →
      loadPlugins ctx (pre ++ p :: post) importerPath importerName =
        .error (plainError "Plugins array cannot includes file paths.")) ∧
    (∀ ctx fuel env gl po ru se parser proc rootF files exF ovs
        pre p post fp nm,
      (∀ q ∈ pre, isFilePath q = false) → isFilePath p = true →
      normalizeObjectConfigData ctx (fuel + 3)
        (ConfigData.mk env gl po ru se .nil parser
          (some (pre ++ p :: post)) proc rootF files exF ovs) fp nm =
        .error (plainError "Plugins array cannot includes file paths.")) := by
  refine ⟨loadPlugins_filePath_error, ?_⟩
  intro ctx fuel env gl po ru se parser proc rootF files exF ovs
    pre p post fp nm hpre hp
  rw [normalizeObjectConfigData_succ, normalizeObjectConfigDataBody_succ]
  show Except.bind (Except.bind (loadExtendsList ctx (fuel + 1) [] fp nm) _) _
    = _
  rw [loadExtendsList_succ_nil, except_bind_ok_left]
  show Except.bind (Except.bind (Except.bind
    (loadPlugins ctx (pre ++ p :: post) fp nm) _) _) _ = _
  rw [loadPlugins_filePath_error ctx fp nm pre p post hpre hp]
  rfl

/-- Witness for C10 at a concrete input: a `plugins: ["ok", "./local"]`
config aborts resolution with the fatal file-path error. -/
theorem C10_plugins_file_path_entry_is_fatal_witness :
    isFilePath "./local" = true ∧
    normalizeObjectConfigData wctx 5
      (ConfigData.mk none none none none none .nil none
        (some ["ok", "./local"]) none none none none []) "/proj/.eslintrc.js"
      "cfg" =
      .error (plainError "Plugins array cannot includes file paths.") := by
  refine ⟨rfl, ?_⟩
  exact C10_plugins_file_path_entry_is_fatal.2 wctx 2 none none none none
    none none none none none none [] ["ok"] "./local" [] "/proj/.eslintrc.js"
    "cfg" (by decide) rfl

/-! ### Claim C5 -/

/-- The whitespace branch of `_loadPlugin`: for a non-file-path identifier
containing whitespace, the result is a dependency record carrying the
structured error — and since the right-hand side mentions neither the pools
nor the resolver, the error is produced before (and independent of) any
resolution attempt. -/
theorem loadPlugin_whitespace_eq (ctx : Ctx) (nameOrPath : String)
    (importerPath : JsPath) (importerName : String)
    (hnf : isFilePath nameOrPath = false)
    (hw : hasWhitespace nameOrPath = true) :
    loadPlugin ctx nameOrPath importerPath importerName =
      ⟨none,
       some (whitespaceError nameOrPath
         (normalizePackageName nameOrPath "eslint-plugin")),
       "",
       getShorthandName (normalizePackageName nameOrPath "eslint-plugin")
         "eslint-plugin",
       "", importerPath⟩ := by
  unfold loadPlugin
  rw [if_neg (by simp [hnf])]
  show (if hasWhitespace nameOrPath = true then _ else _) = _
  rw [if_pos hw]

/-- The plugins list `["foo bar"]` used in the C5 counterexample. -/
def cfgWhitespacePlugin : ConfigData :=
  .mk none none none none none .nil none (some ["foo bar"]) none none none
    none []

/-- C5 counterexample: resolving a config whose `plugins` list contains the
whitespace-bearing identifier `"foo bar"` does NOT raise — `create` returns
a fragment whose plugins map carries the structured whitespace error as a
deferred dependency failure (`definition` absent, `error` present), so the
claim's "fatal, not captured as a deferred dependency failure" is false. -/
theorem C5_counterexample_whitespace_error_is_captured_not_raised :
    ConfigArrayFactory.create wctx 5 (some cfgWhitespacePlugin) "" "" none =
      .ok [⟨"", "", none, none, none, none, none,
            some [("foo bar",
              ⟨none,
               some ⟨"Whitespace found in plugin name 'foo bar'", none,
                     some "whitespace-found",
                     [("pluginName", "eslint-plugin-foo bar")]⟩,
               "", "foo bar", "", ""⟩)],
            none, none, none, none⟩] := rfl

/-- C5 (amended): For every non-file-path plugin identifier containing
whitespace, `_loadPlugin` produces the structured WhitespaceInNameError
before any resolution attempt is made (the outcome does not depend on the
environment), but the error is captured as a deferred dependency failure —
a `plugins` list load completes normally with the error in the dependency's
`error` field and no `definition`. -/
theorem C5_whitespace_plugin_error_is_deferred :
    (∀ ctx nameOrPath importerPath importerName,
      isFilePath nameOrPath = false → hasWhitespace nameOrPath = true →
      loadPlugin ctx nameOrPath importerPath importerName =
        ⟨none,
         some (whitespaceError nameOrPath
           (normalizePackageName nameOrPath "eslint-plugin")),
         "",
         getShorthandName (normalizePackageName nameOrPath "eslint-plugin")
           "eslint-plugin",
         "", importerPath⟩) ∧
    (∀ ctx fuel env gl po ru se proc rootF n fp nm,
      isFilePath n = false → hasWhitespace n = true →
      normalizeObjectConfigData ctx (fuel + 3)
        (ConfigData.mk env gl po ru se .nil none (some [n]) proc rootF none
          none []) fp nm =
        .ok [⟨nm, fp, none, env, gl, none, po,
              some [(getShorthandName (normalizePackageName n "eslint-plugin")
                  "eslint-plugin",
                ⟨none,
                 some (whitespaceError n
                   (normalizePackageName n "eslint-plugin")),
                 "",
                 getShorthandName (normalizePackageName n "eslint-plugin")
                   "eslint-plugin",
                 "", fp⟩)],
              proc, rootF, ru, se⟩]) := by
  refine ⟨loadPlugin_whitespace_eq, ?_⟩
  intro ctx fuel env gl po ru se proc rootF n fp nm hnf hw
  rw [normalizeObjectConfigData_succ, normalizeObjectConfigDataBody_succ]
  show Except.bind (Except.bind (loadExtendsList ctx (fuel + 1) [] fp nm) _)
    _ = _
  rw [loadExtendsList_succ_nil, except_bind_ok_left]
  show Except.bind (Except.bind (Except.bind
    (List.foldlM _ [] [n]) _) _) _ = _
  show Except.bind (Except.bind (Except.bind
    (Except.bind (if isFilePath n = true then _ else _) _) _) _) _ = _
  rw [if_neg (by simp [hnf]),
    loadPlugin_whitespace_eq ctx n fp nm hnf hw]
  rfl

/-- Witness for C5 at the concrete identifier `"foo bar"`. -/
theorem C5_whitespace_plugin_error_is_deferred_witness :
    isFilePath "foo bar" = false ∧ hasWhitespace "foo bar" = true ∧
    loadPlugin wctx "foo bar" "/imp/.eslintrc" "imp" =
      ⟨none,
       some ⟨"Whitespace found in plugin name 'foo bar'", none,
             some "whitespace-found",
             [("pluginName", "eslint-plugin-foo bar")]⟩,
       "", "foo bar", "", "/imp/.eslintrc"⟩ ∧
    normalizeObjectConfigData wctx 5
      (ConfigData.mk none none none none none .nil none (some ["foo bar"])
        none none none none []) "/proj/.eslintrc.js" "cfg" =
      .ok [⟨"cfg", "/proj/.eslintrc.js", none, none, none, none, none,
            some [("foo bar",
              ⟨none,
               some ⟨"Whitespace found in plugin name 'foo bar'", none,
                     some "whitespace-found",
                     [("pluginName", "eslint-plugin-foo bar")]⟩,
               "", "foo bar", "", "/proj/.eslintrc.js"⟩)],
            none, none, none, none⟩] := by
  refine ⟨rfl, rfl, ?_, ?_⟩
  · exact C5_whitespace_plugin_error_is_deferred.1 wctx "foo bar"
      "/imp/.eslintrc" "imp" rfl rfl
  · exact C5_whitespace_plugin_error_is_deferred.2 wctx 2 none none none
      none none none none "foo bar" "/proj/.eslintrc.js" "cfg" rfl rfl

/-! ### Claim C6 -/

theorem bindOk {ε α β : Type} (a : α) (f : α → Except ε β) :
    ((Except.ok a : Except ε α) >>= f) = f a := rfl

/-- An environment for the C6 counterexample: `eslint-plugin-foo` is
installed next to the importer (`/proj/sub`), not at the project root. -/
def ctxC6 : Ctx :=
  ⟨[], [], "/proj",
   fun req base =>
     if req = "eslint-plugin-foo" ∧ base = "/proj/sub/.eslintrc" then
       .ok "/proj/sub/node_modules/eslint-plugin-foo/index.js"
     else
       .error ⟨"Cannot find module '" ++ req ++ "'", some "MODULE_NOT_FOUND",
               none, []⟩,
   fun fp =>
     if fp = "/proj/sub/node_modules/eslint-plugin-foo/index.js" then
       .ok (plainModule "foo-def")
     else .error ⟨"nf", some "MODULE_NOT_FOUND", none, []⟩,
   fun _ => .missing,
   plainModule "espree", "/espree"⟩

/-- C6 counterexample: although resolving `eslint-plugin-foo` relative to
the importer `/proj/sub/.eslintrc` would succeed, `_loadPlugin` with that
importer still fails — the plugin is resolved relative to the project root,
not the importer's directory, refuting the claim for plugins. -/
theorem C6_counterexample_plugin_resolution_ignores_importer :
    ctxC6.resolve "eslint-plugin-foo" "/proj/sub/.eslintrc" =
      .ok "/proj/sub/node_modules/eslint-plugin-foo/index.js" ∧
    loadPlugin ctxC6 "foo" "/proj/sub/.eslintrc" "imp" =
      ⟨none,
       some ⟨"Failed to load plugin eslint-plugin-foo: " ++
             "Cannot find module 'eslint-plugin-foo'" ++
             " (project root is /proj)",
             some "MODULE_NOT_FOUND", some "plugin-missing",
             [("pluginName", "eslint-plugin-foo"),
              ("projectRoot", "/proj")]⟩,
       "", "foo", "imp", "/proj/sub/.eslintrc"⟩ := ⟨rfl, rfl⟩

/-- C6 (amended): a parser named by a package-style identifier is resolved
under the identifier as given (no normalization), relative to the importer
path, falling back to `<cwd>/.eslintrc` when no importer path is given; a
plugin is normalized to its conventional `eslint-plugin` package form but is
always resolved relative to the project root (`<cwd>/.eslintrc`), regardless
of the importer. -/
theorem C6_parser_importer_relative_plugin_root_relative :
    (∀ ctx nameOrPath importerPath importerName fp defn,
      poolGet ctx.additionalParserPool nameOrPath = none →
      importerPath ≠ "" →
      ctx.resolve nameOrPath importerPath = .ok fp →
      ctx.requireModule fp = .ok defn →
      loadParser ctx nameOrPath importerPath importerName =
        ⟨some defn, none, fp, nameOrPath, importerName, importerPath⟩) ∧
    (∀ ctx nameOrPath importerName fp defn,
      poolGet ctx.additionalParserPool nameOrPath = none →
      ctx.resolve nameOrPath (joinPath ctx.cwd ".eslintrc") = .ok fp →
      ctx.requireModule fp = .ok defn →
      loadParser ctx nameOrPath "" importerName =
        ⟨some defn, none, fp, nameOrPath, importerName, ""⟩) ∧
    (∀ ctx nameOrPath importerPath importerName fp defn,
      isFilePath nameOrPath = false → hasWhitespace nameOrPath = false →
      poolGet ctx.additionalPluginPool
        (normalizePackageName nameOrPath "eslint-plugin") = none →
      poolGet ctx.additionalPluginPool
        (getShorthandName (normalizePackageName nameOrPath "eslint-plugin")
          "eslint-plugin") = none →
      ctx.resolve (normalizePackageName nameOrPath "eslint-plugin")
        (joinPath ctx.cwd ".eslintrc") = .ok fp →
      ctx.requireModule fp = .ok defn →
      loadPlugin ctx nameOrPath importerPath importerName =
        ⟨some defn, none, fp,
         getShorthandName (normalizePackageName nameOrPath "eslint-plugin")
           "eslint-plugin",
         importerName, importerPath⟩) := by
  refine ⟨?_, ?_, ?_⟩
  · intro ctx nameOrPath importerPath importerName fp defn hpool hip hres
      hreq
    unfold loadParser
    rw [hpool]
    dsimp only
    rw [if_neg hip, hres, bindOk, hreq, bindOk]
    rfl
  · intro ctx nameOrPath importerName fp defn hpool hres hreq
    unfold loadParser
    rw [hpool]
    dsimp only
    rw [if_pos rfl, hres, bindOk, hreq, bindOk]
    rfl
  · intro ctx nameOrPath importerPath importerName fp defn hnf hw hpool1
      hpool2 hres hreq
    unfold loadPlugin
    rw [if_neg (by simp [hnf])]
    dsimp only
    rw [if_neg (by simp [hw]), hpool1, hpool2]
    show loadPluginResolve ctx _ _ _ _ = _
    unfold loadPluginResolve
    dsimp only
    rw [hres, bindOk, hreq, bindOk]
    rfl

/-- An environment for the C6 witness: a parser installed next to the
importer and a plugin installed at the project root. -/
def ctxC6w : Ctx :=
  ⟨[], [], "/proj",
   fun req base =>
     if req = "my-parser" ∧ base = "/proj/sub/.eslintrc" then
       .ok "/proj/sub/node_modules/my-parser/index.js"
     else if req = "eslint-plugin-foo" ∧ base = "/proj/.eslintrc" then
       .ok "/proj/node_modules/eslint-plugin-foo/index.js"
     else
       .error ⟨"Cannot find module '" ++ req ++ "'", some "MODULE_NOT_FOUND",
               none, []⟩,
   fun fp =>
     if fp = "/proj/sub/node_modules/my-parser/index.js" then
       .ok (plainModule "parser-def")
     else if fp = "/proj/node_modules/eslint-plugin-foo/index.js" then
       .ok (plainModule "plugin-def")
     else .error ⟨"nf", some "MODULE_NOT_FOUND", none, []⟩,
   fun _ => .missing,
   plainModule "espree", "/espree"⟩

/-- Witness for C6 at concrete inputs: the parser `my-parser` loads
importer-relative under its unmodified name; the plugin `foo` is normalized
to `eslint-plugin-foo` and loads root-relative even with an unrelated
importer path. -/
theorem C6_parser_importer_relative_plugin_root_relative_witness :
    ctxC6w.resolve "my-parser" "/proj/sub/.eslintrc" =
      .ok "/proj/sub/node_modules/my-parser/index.js" ∧
    loadParser ctxC6w "my-parser" "/proj/sub/.eslintrc" "imp" =
      ⟨some (plainModule "parser-def"), none,
       "/proj/sub/node_modules/my-parser/index.js", "my-parser", "imp",
       "/proj/sub/.eslintrc"⟩ ∧
    ctxC6w.resolve "eslint-plugin-foo" "/proj/.eslintrc" =
      .ok "/proj/node_modules/eslint-plugin-foo/index.js" ∧
    loadPlugin ctxC6w "foo" "/other/importer" "imp" =
      ⟨some (plainModule "plugin-def"), none,
       "/proj/node_modules/eslint-plugin-foo/index.js", "foo", "imp",
       "/other/importer"⟩ := by
  refine ⟨rfl, ?_, rfl, ?_⟩
  · exact C6_parser_importer_relative_plugin_root_relative.1 ctxC6w
      "my-parser" "/proj/sub/.eslintrc" "imp"
      "/proj/sub/node_modules/my-parser/index.js" (plainModule "parser-def")
      rfl (by decide) rfl rfl
  · exact C6_parser_importer_relative_plugin_root_relative.2.2 ctxC6w
      "foo" "/other/importer" "imp"
      "/proj/node_modules/eslint-plugin-foo/index.js"
      (plainModule "plugin-def") rfl rfl rfl rfl rfl rfl

/-! ### Claim C7 -/

/-- `_loadParser` on a resolution/load failure (pool miss, not `espree`):
the error is annotated when it is `MODULE_NOT_FOUND` and captured in the
returned dependency; nothing is thrown. -/
theorem loadParser_failure_eq (ctx : Ctx) (pn : String) (ip : JsPath)
    (inm : String) (err : JsError)
    (hpool : poolGet ctx.additionalParserPool pn = none) (hip : ip ≠ "")
    (hfail : ((ctx.resolve pn ip : Except JsError JsPath) >>=
      fun filePath => ctx.requireModule filePath >>=
      fun d => pure (filePath, d)) = .error err)
    (hesp : pn ≠ "espree") :
    loadParser ctx pn ip inm =
      ⟨none,
       some (if err.code = some "MODULE_NOT_FOUND" then
         { err with message := "Failed to load parser " ++ pn ++ ": " ++
             err.message ++ " (relative to " ++ ip ++ ")" }
         else err),
       "", pn, inm, ip⟩ := by
  unfold loadParser
  rw [hpool]
  dsimp only
  rw [if_neg hip, hfail]
  dsimp only
  rw [if_neg hesp]

/-- `_loadPlugin` on a resolution/load failure (non-file-path name without
whitespace, pool miss): the error is annotated with the `plugin-missing`
template when it is `MODULE_NOT_FOUND` and captured in the returned
dependency; nothing is thrown. -/
theorem loadPlugin_failure_eq (ctx : Ctx) (bn : String) (ip : JsPath)
    (inm : String) (err : JsError)
    (hnf : isFilePath bn = false) (hw : hasWhitespace bn = false)
    (hp1 : poolGet ctx.additionalPluginPool
      (normalizePackageName bn "eslint-plugin") = none)
    (hp2 : poolGet ctx.additionalPluginPool
      (getShorthandName (normalizePackageName bn "eslint-plugin")
        "eslint-plugin") = none)
    (hfail : ((ctx.resolve (normalizePackageName bn "eslint-plugin")
        (joinPath ctx.cwd ".eslintrc") : Except JsError JsPath) >>=
      fun filePath => ctx.requireModule filePath >>=
      fun d => pure (filePath, d)) = .error err) :
    loadPlugin ctx bn ip inm =
      ⟨none,
       some (if err.code = some "MODULE_NOT_FOUND" then
         { err with
           message := "Failed to load plugin " ++
             normalizePackageName bn "eslint-plugin" ++ ": " ++
             err.message ++ " (project root is " ++ ctx.cwd ++ ")",
           messageTemplate := some "plugin-missing",
           messageData :=
             [("pluginName", normalizePackageName bn "eslint-plugin"),
              ("projectRoot", ctx.cwd)] }
         else err),
       "", getShorthandName (normalizePackageName bn "eslint-plugin")
         "eslint-plugin",
       inm, ip⟩ := by
  unfold loadPlugin
  rw [if_neg (by simp [hnf])]
  dsimp only
  rw [if_neg (by simp [hw]), hp1, hp2]
  show loadPluginResolve ctx _ _ _ _ = _
  unfold loadPluginResolve
  dsimp only
  rw [hfail]

/-- C7: For every `plugins` list entry and every direct `parser` declaration
whose module cannot be resolved or throws during load, resolution does not
raise: the failure is captured in the resulting ConfigDependency's `error`
field (with no `definition`), and resolution of the rest of the config
completes normally. -/
theorem C7_dependency_failures_are_deferred :
    (∀ ctx fuel env gl po ru se proc rootF pn fp nm err,
      poolGet ctx.additionalParserPool pn = none →
      fp ≠ "" →
      ((ctx.resolve pn fp : Except JsError JsPath) >>= fun filePath =>
        ctx.requireModule filePath >>= fun d => pure (filePath, d)) =
        .error err →
      pn ≠ "espree" →
      normalizeObjectConfigData ctx (fuel + 3)
        (ConfigData.mk env gl po ru se .nil (some pn) none proc rootF none
          none []) fp nm =
        .ok [⟨nm, fp, none, env, gl,
              some ⟨none,
                some (if err.code = some "MODULE_NOT_FOUND" then
                  { err with message := "Failed to load parser " ++ pn ++
                      ": " ++ err.message ++ " (relative to " ++ fp ++ ")" }
                  else err),
                "", pn, nm, fp⟩,
              po, none, proc, rootF, ru, se⟩]) ∧
    (∀ ctx fuel env gl po ru se proc rootF bn fp nm err,
      isFilePath bn = false → hasWhitespace bn = false →
      poolGet ctx.additionalPluginPool
        (normalizePackageName bn "eslint-plugin") = none →
      poolGet ctx.additionalPluginPool
        (getShorthandName (normalizePackageName bn "eslint-plugin")
          "eslint-plugin") = none →
      ((ctx.resolve (normalizePackageName bn "eslint-plugin")
          (joinPath ctx.cwd ".eslintrc") : Except JsError JsPath) >>=
        fun filePath => ctx.requireModule filePath >>=
        fun d => pure (filePath, d)) = .error err →
      normalizeObjectConfigData ctx (fuel + 3)
        (ConfigData.mk env gl po ru se .nil none (some [bn]) proc rootF none
          none []) fp nm =
        .ok [⟨nm, fp, none, env, gl, none, po,
              some [(getShorthandName
                  (normalizePackageName bn "eslint-plugin") "eslint-plugin",
                ⟨none,
                 some (if err.code = some "MODULE_NOT_FOUND" then
                   { err with
                     message := "Failed to load plugin " ++
                       normalizePackageName bn "eslint-plugin" ++ ": " ++
                       err.message ++ " (project root is " ++ ctx.cwd ++
                       ")",
                     messageTemplate := some "plugin-missing",
                     messageData :=
                       [("pluginName",
                         normalizePackageName bn "eslint-plugin"),
                        ("projectRoot", ctx.cwd)] }
                   else err),
                 "",
                 getShorthandName (normalizePackageName bn "eslint-plugin")
                   "eslint-plugin",
                 nm, fp⟩)],
              proc, rootF, ru, se⟩]) := by
  constructor
  · intro ctx fuel env gl po ru se proc rootF pn fp nm err hpool hip hfail
      hesp
    rw [normalizeObjectConfigData_succ, normalizeObjectConfigDataBody_succ]
    dsimp only [ConfigData.parser, Option.map]
    rw [loadParser_failure_eq ctx pn fp nm err hpool hip hfail hesp]
    rfl
  · intro ctx fuel env gl po ru se proc rootF bn fp nm err hnf hw hp1 hp2
      hfail
    rw [normalizeObjectConfigData_succ, normalizeObjectConfigDataBody_succ]
    dsimp only [ConfigData.plugins, ConfigData.parser, loadPluginsField,
      loadPlugins, List.foldlM, Option.map]
    rw [if_neg (by simp [hnf]),
      loadPlugin_failure_eq ctx bn fp nm err hnf hw hp1 hp2 hfail]
    rfl

/-- Witness for C7 at concrete inputs: neither a missing parser nor a
missing plugin aborts resolution; both come back as dependencies carrying
the annotated `MODULE_NOT_FOUND` error and no definition. -/
theorem C7_dependency_failures_are_deferred_witness :
    normalizeObjectConfigData wctx 5
      (ConfigData.mk none none none none none .nil (some "bogus-parser")
        none none none none none []) "/proj/.eslintrc.js" "cfg" =
      .ok [⟨"cfg", "/proj/.eslintrc.js", none, none, none,
            some ⟨none,
              some ⟨"Failed to load parser bogus-parser: " ++
                    "Cannot find module 'bogus-parser'" ++
                    " (relative to /proj/.eslintrc.js)",
                    some "MODULE_NOT_FOUND", none, []⟩,
              "", "bogus-parser", "cfg", "/proj/.eslintrc.js"⟩,
            none, none, none, none, none, none⟩] ∧
    normalizeObjectConfigData wctx 5
      (ConfigData.mk none none none none none .nil none (some ["bogus"])
        none none none none []) "/proj/.eslintrc.js" "cfg" =
      .ok [⟨"cfg", "/proj/.eslintrc.js", none, none, none, none, none,
            some [("bogus",
              ⟨none,
               some ⟨"Failed to load plugin eslint-plugin-bogus: " ++
                     "Cannot find module 'eslint-plugin-bogus'" ++
                     " (project root is /cwd)",
                     some "MODULE_NOT_FOUND", some "plugin-missing",
                     [("pluginName", "eslint-plugin-bogus"),
                      ("projectRoot", "/cwd")]⟩,
               "", "bogus", "cfg", "/proj/.eslintrc.js"⟩)],
            none, none, none, none⟩] := by
  constructor
  · exact C7_dependency_failures_are_deferred.1 wctx 2 none none none none
      none none none "bogus-parser" "/proj/.eslintrc.js" "cfg"
      ⟨"Cannot find module 'bogus-parser'", some "MODULE_NOT_FOUND", none,
       []⟩ rfl (by decide) rfl (by decide)
  · exact C7_dependency_failures_are_deferred.2 wctx 2 none none none none
      none none none "bogus" "/proj/.eslintrc.js" "cfg"
      ⟨"Cannot find module 'eslint-plugin-bogus'", some "MODULE_NOT_FOUND",
       none, []⟩ rfl rfl rfl rfl rfl

/-! ### Claim C9 -/

/-- The error codes the directory-search loop swallows. -/
def swallowedCode (e : JsError) : Prop :=
  e.code = some "ENOENT" ∨ e.code = some "MODULE_NOT_FOUND" ∨
  e.code = some "ESLINT_CONFIG_FIELD_NOT_FOUND"

instance (e : JsError) : Decidable (swallowedCode e) := by
  unfold swallowedCode
  infer_instance

/-- Candidates that fail softly are skipped by the search loop. -/
theorem tryConfigFiles_skip (ctx : Ctx) (fuel : Nat) (pre rest : List String)
    (directoryPath : JsPath) (name : String)
    (hpre : ∀ q ∈ pre, ∃ e,
      loadConfigFile ctx (joinPath directoryPath q) = .error e ∧
      swallowedCode e) :
    tryConfigFiles ctx fuel (pre ++ rest) directoryPath name =
      tryConfigFiles ctx fuel rest directoryPath name := by
  induction pre with
  | nil => rfl
  | cons q pre' ih =>
    obtain ⟨e, he, hc⟩ := hpre q (by simp)
    show tryConfigFiles ctx fuel (q :: (pre' ++ rest)) directoryPath name = _
    rw [tryConfigFiles]
    simp only [he]
    rw [if_pos (show e.code = some "ENOENT" ∨ e.code = some "MODULE_NOT_FOUND"
      ∨ e.code = some "ESLINT_CONFIG_FIELD_NOT_FOUND" from hc)]
    exact ih (fun r hr => hpre r (by simp [hr]))

/-- C9: For every directory, `loadOnDirectory` tries the fixed ordered
filename list and takes the first candidate that loads; when no candidate
exists, or the only candidate is a project manifest lacking the nested
config field, the result is an empty fragment sequence and no error is
raised — only failures other than file-not-found, module-not-found, and
missing-config-field propagate. -/
theorem C9_directory_search_first_match_soft_misses :
    configFilenames = [".eslintrc.js", ".eslintrc.yaml", ".eslintrc.yml",
      ".eslintrc.json", ".eslintrc", "package.json"] ∧
    (∀ ctx fuel directoryPath name pre f post d l,
      configFilenames = pre ++ f :: post →
      (∀ q ∈ pre, ∃ e,
        loadConfigFile ctx (joinPath directoryPath q) = .error e ∧
        swallowedCode e) →
      loadConfigFile ctx (joinPath directoryPath f) = .ok d →
      normalizeConfigData ctx fuel d (joinPath directoryPath f) name =
        .ok l →
      loadConfigDataOnDirectory ctx fuel directoryPath name =
        .ok (some l)) ∧
    (∀ ctx fuel directoryPath name,
      (∀ q ∈ configFilenames, ∃ e,
        loadConfigFile ctx (joinPath directoryPath q) = .error e ∧
        swallowedCode e) →
      loadConfigDataOnDirectory ctx fuel directoryPath name = .ok none) ∧
    (∀ ctx fuel directoryPath name,
      (∀ q ∈ configFilenames, ∃ e,
        loadConfigFile ctx
          (joinPath (jsResolvePath ctx.cwd directoryPath) q) = .error e ∧
        swallowedCode e) →
      ConfigArrayFactory.loadOnDirectory ctx fuel directoryPath name none =
        .ok []) ∧
    (∀ ctx fuel directoryPath name pre f post err,
      configFilenames = pre ++ f :: post →
      (∀ q ∈ pre, ∃ e,
        loadConfigFile ctx (joinPath directoryPath q) = .error e ∧
        swallowedCode e) →
      loadConfigFile ctx (joinPath directoryPath f) = .error err →
      ¬ swallowedCode err →
      loadConfigDataOnDirectory ctx fuel directoryPath name =
        .error err) := by
  refine ⟨rfl, ?_, ?_, ?_, ?_⟩
  · intro ctx fuel directoryPath name pre f post d l hsplit hpre hok hnorm
    rw [loadConfigDataOnDirectory, hsplit,
      tryConfigFiles_skip ctx fuel pre (f :: post) directoryPath name hpre,
      tryConfigFiles]
    simp only [hok, hnorm]
  · intro ctx fuel directoryPath name hall
    rw [loadConfigDataOnDirectory,
      show configFilenames = configFilenames ++ [] by simp,
      tryConfigFiles_skip ctx fuel configFilenames [] directoryPath name
        hall]
    rfl
  · intro ctx fuel directoryPath name hall
    show Except.bind (loadConfigDataOnDirectory ctx fuel
      (jsResolvePath ctx.cwd directoryPath) name) _ = _
    rw [loadConfigDataOnDirectory,
      show configFilenames = configFilenames ++ [] by simp,
      tryConfigFiles_skip ctx fuel configFilenames []
        (jsResolvePath ctx.cwd directoryPath) name hall]
    rfl
  · intro ctx fuel directoryPath name pre f post err hsplit hpre herr hhard
    rw [loadConfigDataOnDirectory, hsplit,
      tryConfigFiles_skip ctx fuel pre (f :: post) directoryPath name hpre,
      tryConfigFiles]
    simp only [herr]
    rw [if_neg (show ¬(err.code = some "ENOENT" ∨
      err.code = some "MODULE_NOT_FOUND" ∨
      err.code = some "ESLINT_CONFIG_FIELD_NOT_FOUND") from hhard)]

/-- A file system for the C9 witness: `/dir` has only a manifest without the
config field, `/dir2` has `.eslintrc.json`, `/dir3` has a broken
`.eslintrc.yaml`. -/
def ctxC9 : Ctx :=
  { wctx with readConfigFile := fun p =>
      if p = "/dir/package.json" then .packageJson none
      else if p = "/dir2/.eslintrc.json" then .config recData
      else if p = "/dir3/.eslintrc.yaml" then
        .raises ⟨"Cannot read config file: /dir3/.eslintrc.yaml\nError: bad",
                 none, none, []⟩
      else .missing }

/-- Witness for C9 at concrete directories: a manifest lacking the config
field yields an empty result, the first loadable candidate wins in list
order, and a parse failure with a non-swallowed code propagates. -/
theorem C9_directory_search_first_match_soft_misses_witness :
    loadConfigDataOnDirectory ctxC9 5 "/dir" "nm" = .ok none ∧
    ConfigArrayFactory.loadOnDirectory ctxC9 5 "/dir" "nm" none = .ok [] ∧
    loadConfigDataOnDirectory ctxC9 5 "/dir2" "nm" =
      .ok (some [⟨"nm", "/dir2/.eslintrc.json", none, none, none, none,
                  none, none, none, none, some "recommended-rules", none⟩]) ∧
    loadConfigDataOnDirectory ctxC9 5 "/dir3" "nm" =
      .error ⟨"Cannot read config file: /dir3/.eslintrc.yaml\nError: bad",
              none, none, []⟩ := by
  refine ⟨?_, ?_, ?_, ?_⟩
  · refine C9_directory_search_first_match_soft_misses.2.2.1 ctxC9 5 "/dir"
      "nm" ?_
    intro q hq
    simp only [configFilenames, List.mem_cons, List.not_mem_nil, or_false]
      at hq
    rcases hq with rfl | rfl | rfl | rfl | rfl | rfl
    · exact ⟨_, rfl, Or.inl rfl⟩
    · exact ⟨_, rfl, Or.inl rfl⟩
    · exact ⟨_, rfl, Or.inl rfl⟩
    · exact ⟨_, rfl, Or.inl rfl⟩
    · exact ⟨_, rfl, Or.inl rfl⟩
    · exact ⟨_, rfl, Or.inr (Or.inr rfl)⟩
  · refine C9_directory_search_first_match_soft_misses.2.2.2.1 ctxC9 5
      "/dir" "nm" ?_
    intro q hq
    simp only [configFilenames, List.mem_cons, List.not_mem_nil, or_false]
      at hq
    rcases hq with rfl | rfl | rfl | rfl | rfl | rfl
    · exact ⟨_, rfl, Or.inl rfl⟩
    · exact ⟨_, rfl, Or.inl rfl⟩
    · exact ⟨_, rfl, Or.inl rfl⟩
    · exact ⟨_, rfl, Or.inl rfl⟩
    · exact ⟨_, rfl, Or.inl rfl⟩
    · exact ⟨_, rfl, Or.inr (Or.inr rfl)⟩
  · refine C9_directory_search_first_match_soft_misses.2.1 ctxC9 5 "/dir2"
      "nm" [".eslintrc.js", ".eslintrc.yaml", ".eslintrc.yml"]
      ".eslintrc.json" [".eslintrc", "package.json"] recData _ rfl ?_ rfl
      rfl
    intro q hq
    simp only [List.mem_cons, List.not_mem_nil, or_false] at hq
    rcases hq with rfl | rfl | rfl
    · exact ⟨_, rfl, Or.inl rfl⟩
    · exact ⟨_, rfl, Or.inl rfl⟩
    · exact ⟨_, rfl, Or.inl rfl⟩
  · refine C9_directory_search_first_match_soft_misses.2.2.2.2 ctxC9 5
      "/dir3" "nm" [".eslintrc.js"] ".eslintrc.yaml"
      [".eslintrc.yml", ".eslintrc.json", ".eslintrc", "package.json"] _
      rfl ?_ rfl (by decide)
    intro q hq
    simp only [List.mem_cons, List.not_mem_nil, or_false] at hq
    subst hq
    exact ⟨_, rfl, Or.inl rfl⟩

/-! ### Claim C1 -/

theorem except_bind_ok_inv {ε α β : Type} {x : Except ε α}
    {f : α → Except ε β} {b : β} :
    Except.bind x f = Except.ok b ↔ ∃ a, x = .ok a ∧ f a = .ok b := by
  cases x <;> simp [Except.bind]

/-- Decomposition of the `extends` loop: a successful result is the
concatenation, in declared order, of each entry's `_loadExtends` result. -/
theorem loadExtendsList_decomp (ctx : Ctx) (names : List String)
    (fp : JsPath) (nm : String) :
    ∀ (fuel : Nat) (A : List ConfigArrayElement),
      loadExtendsList ctx fuel names fp nm = .ok A →
      ∃ parts : List (List ConfigArrayElement),
        parts.length = names.length ∧ A = parts.flatten ∧
        ∀ i (h1 : i < names.length) (h2 : i < parts.length),
          ∃ fu, loadExtends ctx fu (names.get ⟨i, h1⟩) fp nm =
            .ok (parts.get ⟨i, h2⟩) := by
  induction names with
  | nil =>
    intro fuel A h
    cases fuel with
    | zero => exact absurd h (by simp [loadExtendsList])
    | succ k =>
      rw [loadExtendsList_succ_nil] at h
      cases h
      exact ⟨[], rfl, rfl, fun i h1 _ => absurd h1 (by simp)⟩
  | cons n rest ih =>
    intro fuel A h
    cases fuel with
    | zero => exact absurd h (by simp [loadExtendsList])
    | succ k =>
      rw [loadExtendsList_succ_cons] at h
      rw [except_bind_ok_inv] at h
      obtain ⟨a, ha, h⟩ := h
      rw [except_bind_ok_inv] at h
      obtain ⟨b, hb, h⟩ := h
      cases h
      obtain ⟨parts', hlen, rfl, hidx⟩ := ih k b hb
      refine ⟨a :: parts', by simp [hlen], rfl, ?_⟩
      intro i h1 h2
      cases i with
      | zero => exact ⟨k, ha⟩
      | succ i' =>
        exact hidx i' (by simpa using h1) (by simpa using h2)

/-- Decomposition of the `overrides` loop: a successful result is the
concatenation, in declared order, of each entry's recursive normalization
under its synthesized `#overrides[i]` name. -/
theorem flattenOverrides_decomp (ctx : Ctx) (list : List ConfigData)
    (fp : JsPath) (nm : String) :
    ∀ (i0 : Nat) (fuel : Nat) (V : List ConfigArrayElement),
      flattenOverrides ctx fuel list fp nm i0 = .ok V →
      ∃ parts : List (List ConfigArrayElement),
        parts.length = list.length ∧ V = parts.flatten ∧
        ∀ j (h1 : j < list.length) (h2 : j < parts.length),
          ∃ fu, normalizeObjectConfigData ctx fu (list.get ⟨j, h1⟩) fp
            (nm ++ "#overrides[" ++ toString (i0 + j) ++ "]") =
            .ok (parts.get ⟨j, h2⟩) := by
  induction list with
  | nil =>
    intro i0 fuel V h
    cases fuel with
    | zero => exact absurd h (by simp [flattenOverrides])
    | succ k =>
      rw [flattenOverrides_succ_nil] at h
      cases h
      exact ⟨[], rfl, rfl, fun j h1 _ => absurd h1 (by simp)⟩
  | cons o rest ih =>
    intro i0 fuel V h
    cases fuel with
    | zero => exact absurd h (by simp [flattenOverrides])
    | succ k =>
      rw [flattenOverrides_succ_cons] at h
      rw [except_bind_ok_inv] at h
      obtain ⟨a, ha, h⟩ := h
      rw [except_bind_ok_inv] at h
      obtain ⟨b, hb, h⟩ := h
      cases h
      obtain ⟨parts', hlen, rfl, hidx⟩ := ih (i0 + 1) k b hb
      refine ⟨a :: parts', by simp [hlen], rfl, ?_⟩
      intro j h1 h2
      cases j with
      | zero =>
        exact ⟨k, by simpa using ha⟩
      | succ j' =>
        have := hidx j' (by simpa using h1) (by simpa using h2)
        obtain ⟨fu, hfu⟩ := this
        exact ⟨fu, by
          have harr : i0 + 1 + j' = i0 + (j' + 1) := by omega
          rw [← harr]
          exact hfu⟩

/-- C1 (amended): a successful flattening of a config body is ordered as:
for each non-empty `extends` entry in declared order, all of that entry's
recursively flattened fragments; then one pseudo-fragment sequence per
plugin file-extension processor; then the declaring config's own fragment;
then, for each `overrides` entry in declared order, all of that entry's
flattened fragments — so extends results precede the declarer and overrides
results follow it. -/
theorem C1_body_flattening_order :
    ∀ ctx fuel d fp nm l,
      normalizeObjectConfigDataBody ctx (fuel + 1) d fp nm = .ok l →
      ∃ (exts : List (List ConfigArrayElement))
        (procs : List ConfigArrayElement)
        (pluginsMap : Option (List (String × ConfigDependency)))
        (ovs : List (List ConfigArrayElement)),
        exts.length = d.ext.toList.length ∧
        ovs.length = d.overrides.length ∧
        loadPluginsField ctx d.plugins fp nm = .ok pluginsMap ∧
        takeFileExtensionProcessors ctx fuel
          (pseudoConfigsOfPlugins pluginsMap nm) fp = .ok procs ∧
        (∀ i (h1 : i < d.ext.toList.length) (h2 : i < exts.length),
          ∃ fu, loadExtends ctx fu (d.ext.toList.get ⟨i, h1⟩) fp nm =
            .ok (exts.get ⟨i, h2⟩)) ∧
        (∀ j (h1 : j < d.overrides.length) (h2 : j < ovs.length),
          ∃ fu, normalizeObjectConfigData ctx fu (d.overrides.get ⟨j, h1⟩)
            fp (nm ++ "#overrides[" ++ toString j ++ "]") =
            .ok (ovs.get ⟨j, h2⟩)) ∧
        l = exts.flatten ++ procs ++
          [⟨nm, fp, none, d.env, d.globals,
            d.parser.map (fun pn => loadParser ctx pn fp nm),
            d.parserOptions, pluginsMap, d.processor, d.root, d.rules,
            d.settings⟩] ++ ovs.flatten := by
  intro ctx fuel d fp nm l h
  rw [normalizeObjectConfigDataBody_succ] at h
  rw [except_bind_ok_inv] at h
  obtain ⟨extFrags, hLEL, h⟩ := h
  rw [except_bind_ok_inv] at h
  obtain ⟨pluginsMap, hPF, h⟩ := h
  rw [except_bind_ok_inv] at h
  obtain ⟨procs, hTP, h⟩ := h
  rw [except_bind_ok_inv] at h
  obtain ⟨ovF, hFO, h⟩ := h
  cases h
  obtain ⟨exts, hel, rfl, hexts⟩ :=
    loadExtendsList_decomp ctx d.ext.toList fp nm fuel extFrags hLEL
  obtain ⟨ovs, hol, rfl, hovs⟩ :=
    flattenOverrides_decomp ctx d.overrides fp nm 0 fuel ovF hFO
  refine ⟨exts, procs, pluginsMap, ovs, hel, hol, hPF, hTP, hexts, ?_, rfl⟩
  intro j h1 h2
  have := hovs j h1 h2
  rwa [Nat.zero_add] at this

/-- An environment with the plugin `procplug` (exposing a `.md` processor)
installed at the project root, and the bundled `eslint:recommended`. -/
def ctxProc : Ctx :=
  { wctx with
    resolve := fun req base =>
      if req = "eslint-plugin-procplug" ∧ base = "/cwd/.eslintrc" then
        .ok "/cwd/node_modules/eslint-plugin-procplug/index.js"
      else
        .error ⟨"Cannot find module '" ++ req ++ "'",
                some "MODULE_NOT_FOUND", none, []⟩,
    requireModule := fun fp =>
      if fp = "/cwd/node_modules/eslint-plugin-procplug/index.js" then
        .ok ⟨[], [".md"], "procplug"⟩
      else .error ⟨"nf", some "MODULE_NOT_FOUND", none, []⟩,
    readConfigFile := fun p =>
      if p = eslintRecommendedPath then .config recData else .missing }

/-- A config with no `extends` and no `overrides`, whose only plugin exposes
a `.md` file-extension processor. -/
def dProcOnly : ConfigData :=
  .mk none none none none none .nil none (some ["procplug"]) none none none
    none []

/-- The loaded `procplug` dependency as it appears in elements below. -/
def procplugDep : ConfigDependency :=
  ⟨some ⟨[], [".md"], "procplug"⟩, none,
   "/cwd/node_modules/eslint-plugin-procplug/index.js", "procplug", "cfg",
   "/proj/.eslintrc.js"⟩

/-- C1 counterexample: for `dProcOnly` — a config with NO `extends` entries
and NO `overrides` entries — the claim as stated says the flattened fragment
sequence consists of exactly the declaring config's own fragment.  The code
instead yields TWO fragments: the plugin file-extension-processor
pseudo-fragment first, then the declaring fragment — so the claimed ordering
("extends results; then the declarer; then overrides results") omits the
processor pseudo-fragments that sit between the extends results and the
declarer. -/
theorem C1_counterexample_processor_pseudo_fragment_before_declarer :
    dProcOnly.ext.toList = [] ∧ dProcOnly.overrides = [] ∧
    normalizeObjectConfigDataBody ctxProc 5 dProcOnly "/proj/.eslintrc.js"
      "cfg" =
      .ok [⟨"cfg#processors[\x22procplug/.md\x22]", "/proj/.eslintrc.js",
            some ⟨[⟨["*.md"], []⟩], "/proj"⟩,
            none, none, none, none, none, some "procplug/.md", none, none,
            none⟩,
           ⟨"cfg", "/proj/.eslintrc.js", none, none, none, none, none,
            some [("procplug", procplugDep)], none, none, none, none⟩] :=
  ⟨rfl, rfl, rfl⟩

/-- A config exercising every slot of the flattening order: one `extends`
entry, a processor-bearing plugin, declared fields, and one override. -/
def dFull : ConfigData :=
  .mk (some "env0") none none none none (.single "eslint:recommended") none
    (some ["procplug"]) none (some true) none none
    [.mk none none none none none .nil none none none none (some ["*.ts"])
      none []]

/-- Witness for C1 at a concrete input: the flattening of `dFull` is the
extends result, then the processor pseudo-fragment, then the declaring
fragment, then the override result — and the amended theorem applies to
it. -/
theorem C1_body_flattening_order_witness :
    normalizeObjectConfigDataBody ctxProc 9 dFull "/proj/.eslintrc.js"
      "cfg" =
      .ok [⟨"cfg » eslint:recommended", "/eslint/conf/eslint-recommended.js",
            none, none, none, none, none, none, none, none,
            some "recommended-rules", none⟩,
           ⟨"cfg#processors[\x22procplug/.md\x22]", "/proj/.eslintrc.js",
            some ⟨[⟨["*.md"], []⟩], "/proj"⟩,
            none, none, none, none, none, some "procplug/.md", none, none,
            none⟩,
           ⟨"cfg", "/proj/.eslintrc.js", none, some "env0", none, none,
            none, some [("procplug", procplugDep)], none, some true, none,
            none⟩,
           ⟨"cfg#overrides[0]", "/proj/.eslintrc.js",
            some ⟨[⟨["*.ts"], []⟩], "/proj"⟩,
            none, none, none, none, none, none, none, none, none⟩] ∧
    (∃ (exts : List (List ConfigArrayElement))
       (procs : List ConfigArrayElement)
       (pluginsMap : Option (List (String × ConfigDependency)))
       (ovs : List (List ConfigArrayElement)),
      exts.length = dFull.ext.toList.length ∧
      ovs.length = dFull.overrides.length ∧
      loadPluginsField ctxProc dFull.plugins "/proj/.eslintrc.js" "cfg" =
        .ok pluginsMap ∧
      takeFileExtensionProcessors ctxProc 8
        (pseudoConfigsOfPlugins pluginsMap "cfg") "/proj/.eslintrc.js" =
        .ok procs ∧
      (∀ i (h1 : i < dFull.ext.toList.length) (h2 : i < exts.length),
        ∃ fu, loadExtends ctxProc fu (dFull.ext.toList.get ⟨i, h1⟩)
          "/proj/.eslintrc.js" "cfg" = .ok (exts.get ⟨i, h2⟩)) ∧
      (∀ j (h1 : j < dFull.overrides.length) (h2 : j < ovs.length),
        ∃ fu, normalizeObjectConfigData ctxProc fu
          (dFull.overrides.get ⟨j, h1⟩) "/proj/.eslintrc.js"
          ("cfg" ++ "#overrides[" ++ toString j ++ "]") =
          .ok (ovs.get ⟨j, h2⟩)) ∧
      [⟨"cfg » eslint:recommended", "/eslint/conf/eslint-recommended.js",
        none, none, none, none, none, none, none, none,
        some "recommended-rules", none⟩,
       ⟨"cfg#processors[\x22procplug/.md\x22]", "/proj/.eslintrc.js",
        some ⟨[⟨["*.md"], []⟩], "/proj"⟩,
        none, none, none, none, none, some "procplug/.md", none, none,
        none⟩,
       ⟨"cfg", "/proj/.eslintrc.js", none, some "env0", none, none, none,
        some [("procplug", procplugDep)], none, some true, none, none⟩,
       ⟨"cfg#overrides[0]", "/proj/.eslintrc.js",
        some ⟨[⟨["*.ts"], []⟩], "/proj"⟩,
        none, none, none, none, none, none, none, none, none⟩] =
        exts.flatten ++ procs ++
          [⟨"cfg", "/proj/.eslintrc.js", none, dFull.env, dFull.globals,
            dFull.parser.map
              (fun pn => loadParser ctxProc pn "/proj/.eslintrc.js" "cfg"),
            dFull.parserOptions, pluginsMap, dFull.processor, dFull.root,
            dFull.rules, dFull.settings⟩] ++ ovs.flatten) :=
  ⟨rfl, C1_body_flattening_order ctxProc 8 dFull "/proj/.eslintrc.js" "cfg"
    _ rfl⟩
